import Mathlib

/-!
Verification development for the CryptoNow payment-gateway server
(Rust sources: src/main.rs, src/payment.rs, src/storage.rs,
src/multichain.rs, src/config.rs).

Modelling conventions:
* Solana public keys, signatures and blockhashes are kept abstract as
  strings; parsing (`Pubkey::from_str`, `Signature::from_str`) and the
  associated-token-address derivation are external library calls and are
  passed in as an environment (`ChainEnv`).
* Rust `f64` values are modelled by `F64`: either NaN or an exact
  rational.  Arithmetic on the rational carrier is exact; the power-of-ten
  constants used by the code (`1e9`, `1e6`, `0.000001`) are taken at their
  mathematical values.  Comparisons involving NaN are `false`, mirroring
  IEEE-754 semantics, and the `as u64` cast saturates and truncates
  toward zero exactly as Rust's float-to-int cast does (NaN maps to 0).
* `chrono::DateTime<Utc>` instants are modelled as integers (seconds);
  `Duration::minutes(30)` becomes `30 * 60`.
* The `HashMap`-backed storage is modelled as an association list with
  unique keys; network I/O (`getLatestBlockhash`, `get_transaction`) is
  modelled by explicit oracle functions so that control flow around the
  network is fully captured while the wire protocol stays external.
* `bincode` + base64 serialization of the composed transaction is an
  injective encoding applied last; the composer is modelled up to that
  encoding and returns the transaction value itself.
-/

abbrev Pubkey := String

abbrev Blockhash := String

deriving instance DecidableEq for Except

/-- Model of Rust `f64`: NaN, or an exact rational value.  Infinities are
omitted (no claim depends on them; both validation comparisons reject
them).  Comparisons return `false` whenever NaN is involved. -/
inductive F64 where
  | nan : F64
  | num : ℚ → F64
deriving DecidableEq

def F64.add : F64 → F64 → F64
  | num a, num b => num (a + b)
  | _, _ => nan

def F64.sub : F64 → F64 → F64
  | num a, num b => num (a - b)
  | _, _ => nan

def F64.mul : F64 → F64 → F64
  | num a, num b => num (a * b)
  | _, _ => nan

/-- Division; the only divisors appearing in the code are the nonzero
constants `10^9` and `10^6`. -/
def F64.div : F64 → F64 → F64
  | num a, num b => if b = 0 then nan else num (a / b)
  | _, _ => nan

def F64.abs : F64 → F64
  | nan => nan
  | num a => num (if a < 0 then -a else a)

/-- Rust `<` on f64: false when either side is NaN. -/
def F64.lt : F64 → F64 → Bool
  | num a, num b => decide (a < b)
  | _, _ => false

/-- Rust `<=` on f64: false when either side is NaN. -/
def F64.le : F64 → F64 → Bool
  | num a, num b => decide (a ≤ b)
  | _, _ => false

/-- Rust's `as u64` cast from `f64`: NaN goes to 0, negative values
saturate to 0, values at or above `2^64` saturate to `2^64 - 1`, and
everything else is truncated toward zero. -/
def f64ToU64 : F64 → ℕ
  | .nan => 0
  | .num q => if q < 0 then 0 else if (2 : ℚ) ^ 64 ≤ q then 2 ^ 64 - 1 else (⌊q⌋).toNat

/-- Round toward zero on rationals (the spec's "round-toward-zero"). -/
def rtz (q : ℚ) : ℤ := if 0 ≤ q then ⌊q⌋ else -⌊-q⌋

/-- `PaymentStatus` from src/payment.rs. -/
inductive PaymentStatus where
  | Pending
  | Completed
  | Expired
  | Failed
deriving DecidableEq

/-- `Payment` from src/payment.rs; timestamps in integer seconds. -/
structure Payment where
  id : String
  recipient : String
  amount : F64
  token : String
  fee_recipient : String
  fee_amount : F64
  fee_token : String
  label : String
  message : String
  url : String
  qr_code : String
  status : PaymentStatus
  created_at : ℤ
  expires_at : ℤ
  signature : Option String
  verified_at : Option ℤ
deriving DecidableEq

/-- `VerificationResult` from src/payment.rs. -/
structure VerificationResult where
  success : Bool
  status : PaymentStatus
  verified : Bool
  signature : Option String
  details : String
deriving DecidableEq

/-- `TokenConfig` from src/config.rs (`mint = none` for native SOL). -/
structure TokenConfig where
  symbol : String
  mint : Option String
  decimals : ℕ
  name : String
deriving DecidableEq

/-- `SolanaConfig` from src/config.rs (rpc_url / commitment omitted:
they only parameterize the external RPC client). -/
structure SolanaConfig where
  fee_wallet : String
  fee_amount : F64
  fee_token : String
  supported_tokens : List TokenConfig
deriving DecidableEq

/-- `Config` from src/config.rs (server host/port omitted: unused by the
core logic). -/
structure Config where
  solana : SolanaConfig
deriving DecidableEq

/-- `Config::get_token_config`. -/
def Config.getTokenConfig (cfg : Config) (symbol : String) : Option TokenConfig :=
  cfg.solana.supported_tokens.find? (fun t => t.symbol = symbol)

/-- `Config::is_token_supported`. -/
def Config.isTokenSupported (cfg : Config) (symbol : String) : Bool :=
  (cfg.getTokenConfig symbol).isSome

/-- The default configuration built by `Config::load` in src/config.rs
 (environment overrides left at their defaults). -/
def defaultConfig : Config :=
  { solana :=
    { fee_wallet := "9E9ME8Xjrnnz5tyLqPWUbXVbPjXusEp9NdjKeugDjW5t"
      fee_amount := F64.num 1
      fee_token := "USDC"
      supported_tokens :=
        [ { symbol := "SOL", mint := none, decimals := 9, name := "Solana" },
          { symbol := "USDC",
            mint := some "EPjFWdd5AufqSSqeM2qN1xzybapC8G4wEGGkZwyTDt1v",
            decimals := 6, name := "USD Coin" },
          { symbol := "USDT",
            mint := some "Es9vMFrzaCERmJfrF4H2FYD4KCoNkY11McCe8BenwNYB",
            decimals := 6, name := "Tether USD" } ] } }

/-- The in-memory payment store (`HashMap<String, Payment>` in
src/storage.rs), as an association list with unique keys. -/
abbrev Store := List (String × Payment)

/-- Lookup, `StorageService::get_payment`. -/
def getPayment : Store → String → Option Payment
  | [], _ => none
  | (k', p) :: rest, k => if k' = k then some p else getPayment rest k

/-- Drop every binding of a key (helper for `savePayment`). -/
def removeKey : Store → String → Store
  | [], _ => []
  | (k', p) :: rest, k =>
      if k' = k then removeKey rest k else (k', p) :: removeKey rest k

/-- Upsert, `StorageService::save_payment` (`HashMap::insert`,
last write wins). -/
def savePayment (s : Store) (k : String) (p : Payment) : Store :=
  (k, p) :: removeKey s k

/-- `StorageService::cleanup_expired_payments`: remove every entry with
`now > expires_at` and return the removed count. -/
def cleanupExpiredPayments : Store → ℤ → Store × ℕ
  | [], _ => ([], 0)
  | (k, p) :: rest, now =>
      let r := cleanupExpiredPayments rest now
      if now > p.expires_at then (r.1, r.2 + 1) else ((k, p) :: r.1, r.2)

/-- Keys of a store are pairwise distinct (the `HashMap` invariant). -/
def keysNodup (s : Store) : Prop := (s.map Prod.fst).Nodup

/-- External chain primitives consumed by the server: key/signature
parsing, associated-token-address derivation, and `f64` display
formatting (used only to build human-readable message strings). -/
structure ChainEnv where
  parsePubkey : String → Option Pubkey
  parseSignature : String → Option String
  getAssociatedTokenAddress : Pubkey → Pubkey → Pubkey
  fmtF64 : F64 → String

/-- Instructions emitted by the composer: the three Solana instruction
shapes built in `create_payment_transaction` (src/main.rs). -/
inductive SolInstruction where
  | transferSol (source dest : Pubkey) (lamports : ℕ)
  | createAssociatedTokenAccount (payer wallet mint : Pubkey)
  | transferSpl (tokenProgram source dest authority : Pubkey) (amount : ℕ)
deriving DecidableEq

/-- Transfer instructions, as opposed to account-preparation ones. -/
def SolInstruction.isTransfer : SolInstruction → Bool
  | transferSol _ _ _ => true
  | transferSpl _ _ _ _ _ => true
  | createAssociatedTokenAccount _ _ _ => false

/-- The minor-unit amount carried by a transfer instruction. -/
def SolInstruction.transferAmount : SolInstruction → ℕ
  | transferSol _ _ n => n
  | transferSpl _ _ _ _ n => n
  | createAssociatedTokenAccount _ _ _ => 0

/-- The unsigned transaction built in `create_payment_transaction`:
one fee payer, one ordered instruction list, one recent blockhash. -/
structure Transaction where
  feePayer : Pubkey
  instructions : List SolInstruction
  recentBlockhash : Blockhash
deriving DecidableEq

/-- USDC mint literal from src/main.rs. -/
def usdcMint : String := "EPjFWdd5AufqSSqeM2qN1xzybapC8G4wEGGkZwyTDt1v"

/-- USDT mint literal from src/main.rs. -/
def usdtMint : String := "Es9vMFrzaCERmJfrF4H2FYD4KCoNkY11McCe8BenwNYB"

/-- The SPL token program id (`spl_token::ID`). -/
def splTokenProgramId : Pubkey := "TokenkegQfeZyiNwAJbNbGKPFXCWuBvf9Ss623VQ5DA"

/-- The fixed ordered RPC endpoint list from
`get_recent_blockhash_with_retries` (src/main.rs). -/
def rpcEndpoints : List String :=
  [ "https://api.mainnet-beta.solana.com",
    "https://solana-api.projectserum.com",
    "https://rpc.ankr.com/solana" ]

/-- One endpoint-iteration of `get_recent_blockhash_with_retries`:
`for retry in 0..2` — up to two attempts per endpoint (the per-attempt
10s timeout and the 1s backoff between the two attempts are absorbed
into the attempt oracle: `none` covers both an RPC error and a
timeout), then fall through to the next endpoint. -/
def tryEndpointsForBlockhash :
    List String → (String → ℕ → Option Blockhash) → Except String Blockhash
  | [], _ => .error "All RPC endpoints failed after retries"
  | e :: rest, att =>
      match att e 0 with
      | some h => .ok h
      | none =>
          match att e 1 with
          | some h => .ok h
          | none => tryEndpointsForBlockhash rest att

/-- `get_recent_blockhash_with_retries` (src/main.rs): iterate the fixed
endpoint list, two attempts per endpoint, first success wins. -/
def getRecentBlockhashWithRetries
    (att : String → ℕ → Option Blockhash) : Except String Blockhash :=
  tryEndpointsForBlockhash rpcEndpoints att

/-- The attempt results in the order the code tries them. -/
def attemptSequence (att : String → ℕ → Option Blockhash) : List (Option Blockhash) :=
  rpcEndpoints.flatMap (fun e => [att e 0, att e 1])

/-- The minor-unit scaling `(amount * 10^decimals) as u64` used by the
composer for each leg (src/main.rs lines 219, 232, 261; the identical
expression appears in `create_spl_transfer_instruction`,
src/multichain.rs line 148). -/
def tokenMinorAmount (amount : F64) (decimals : ℕ) : ℕ :=
  f64ToU64 (amount.mul (F64.num ((10 : ℚ) ^ decimals)))

/-- Main-leg instructions of `create_payment_transaction`: a native
transfer for "SOL"; for SPL tokens, resolve the hardcoded mint
(USDC/USDT only, otherwise `Unsupported token`), then an idempotent
create-associated-token-account instruction followed by the SPL
transfer. -/
def mainLegInstructions (env : ChainEnv) (payment : Payment)
    (payer recipient : Pubkey) : Except String (List SolInstruction) :=
  if payment.token = "SOL" then
    .ok [.transferSol payer recipient (tokenMinorAmount payment.amount 9)]
  else
    match (if payment.token = "USDC" then some usdcMint
           else if payment.token = "USDT" then some usdtMint else none) with
    | none => .error ("Unsupported token: " ++ payment.token)
    | some mintStr =>
        match env.parsePubkey mintStr with
        | none => .error "Invalid mint address"
        | some mint =>
            .ok [.createAssociatedTokenAccount payer recipient mint,
                 .transferSpl splTokenProgramId
                   (env.getAssociatedTokenAddress payer mint)
                   (env.getAssociatedTokenAddress recipient mint)
                   payer
                   (tokenMinorAmount payment.amount
                     (if payment.token = "USDC" || payment.token = "USDT" then 6 else 9))]

/-- Fee-leg instructions of `create_payment_transaction`: always an
associated-account preparation plus an SPL transfer of the hardcoded
USDC mint, scaled by `1_000_000.0` (6 decimals), regardless of the
payment's configured `fee_token`. -/
def feeLegInstructions (env : ChainEnv) (payment : Payment)
    (payer feeRecipient usdcKey : Pubkey) : List SolInstruction :=
  [.createAssociatedTokenAccount payer feeRecipient usdcKey,
   .transferSpl splTokenProgramId
     (env.getAssociatedTokenAddress payer usdcKey)
     (env.getAssociatedTokenAddress feeRecipient usdcKey)
     payer
     (tokenMinorAmount payment.fee_amount 6)]

/-- `create_payment_transaction` (src/main.rs, lines 195-311), up to the
final bincode/base64 encoding: parse the three addresses, build the main
leg, build the fee leg, fetch a recent blockhash with retries, and
assemble everything into one transaction. -/
def createPaymentTransaction (env : ChainEnv)
    (att : String → ℕ → Option Blockhash)
    (payment : Payment) (payerStr : String) : Except String Transaction :=
  match env.parsePubkey payerStr with
  | none => .error "Invalid payer address"
  | some payer =>
  match env.parsePubkey payment.recipient with
  | none => .error "Invalid recipient address"
  | some recipient =>
  match env.parsePubkey payment.fee_recipient with
  | none => .error "Invalid fee recipient address"
  | some feeRecipient =>
  match mainLegInstructions env payment payer recipient with
  | .error e => .error e
  | .ok mainInstructions =>
  match env.parsePubkey usdcMint with
  | none => .error "Invalid mint address"
  | some usdcKey =>
  match getRecentBlockhashWithRetries att with
  | .error e => .error ("Failed to get blockhash: " ++ e)
  | .ok recentBlockhash =>
  .ok { feePayer := payer,
        instructions :=
          mainInstructions ++ feeLegInstructions env payment payer feeRecipient usdcKey,
        recentBlockhash := recentBlockhash }

/-- One token-balance snapshot entry
(`pre_token_balances` / `post_token_balances`). -/
structure TokenBalance where
  owner : String
  mint : String
  uiAmount : Option F64
deriving DecidableEq

/-- Transaction metadata returned by the RPC lookup
(`transaction.meta`). -/
structure TxMeta where
  err : Option String
  preBalances : List ℕ
  postBalances : List ℕ
  preTokenBalances : Option (List TokenBalance)
  postTokenBalances : Option (List TokenBalance)
deriving DecidableEq

/-- A confirmed transaction as fetched by `get_transaction`. -/
structure ConfirmedTransaction where
  meta : Option TxMeta
  accountKeys : List Pubkey
deriving DecidableEq

/-- `TransactionVerification` from src/multichain.rs. -/
structure TransactionVerification where
  is_valid : Bool
  details : String
  main_transfer_valid : Bool
  fee_transfer_valid : Bool
deriving DecidableEq

/-- `verify_sol_transfer_in_transaction` (src/multichain.rs lines
243-267): locate the recipient among the account keys, compute the
lamport balance delta divided by `10^9`, and compare against the
expected amount with the strict `< 0.000001` tolerance. -/
def verifySolTransferInTransaction (tx : ConfirmedTransaction)
    (recipient : Pubkey) (expectedAmount : F64) : Except String Bool :=
  match tx.meta with
  | none => .error "No transaction meta"
  | some meta =>
      match tx.accountKeys.findIdx? (fun key => key = recipient) with
      | some index =>
          let preBalance := (meta.preBalances.get? index).getD 0
          let postBalance := (meta.postBalances.get? index).getD 0
          let actualChange :=
            F64.div (F64.sub (F64.num postBalance) (F64.num preBalance))
              (F64.num ((10 : ℚ) ^ 9))
          .ok (F64.lt (F64.abs (F64.sub actualChange expectedAmount))
                 (F64.num (1 / 1000000)))
      | none => .ok false

/-- The pre-balance looked up for a recipient/mint pair in
`verify_spl_transfer_in_transaction` (defaults to 0 when absent). -/
def splPreAmount (preBalances : List TokenBalance)
    (recipient : Pubkey) (mint : String) : F64 :=
  ((preBalances.find? (fun pre => pre.owner = recipient ∧ pre.mint = mint)).map
    (fun pre => pre.uiAmount.getD (F64.num 0))).getD (F64.num 0)

/-- `verify_spl_transfer_in_transaction` (src/multichain.rs lines
269-309): scan the post token balances for an entry owned by the
recipient with the token's mint whose delta against the matching pre
balance is strictly within the `0.000001` tolerance; return true on the
first such entry, false otherwise. -/
def verifySplTransferInTransaction (cfg : Config) (meta : TxMeta)
    (recipient : Pubkey) (expectedAmount : F64) (token : String) :
    Except String Bool :=
  match cfg.getTokenConfig token with
  | none => .error ("Token " ++ token ++ " not supported")
  | some tokenConfig =>
  match tokenConfig.mint with
  | none => .error ("No mint for token " ++ token)
  | some mint =>
  match meta.preTokenBalances, meta.postTokenBalances with
  | some preBalances, some postBalances =>
      .ok (postBalances.any (fun post =>
        post.owner = recipient ∧ post.mint = mint ∧
        F64.lt (F64.abs (F64.sub
            (F64.sub (post.uiAmount.getD (F64.num 0))
              (splPreAmount preBalances recipient mint))
            expectedAmount))
          (F64.num (1 / 1000000))))
  | _, _ => .ok false

/-- `verify_transfer_in_transaction` (src/multichain.rs lines 226-241). -/
def verifyTransferInTransaction (cfg : Config) (tx : ConfirmedTransaction)
    (recipient : Pubkey) (expectedAmount : F64) (token : String) :
    Except String Bool :=
  match tx.meta with
  | none => .error "No transaction meta"
  | some meta =>
      if token = "SOL" then
        verifySolTransferInTransaction tx recipient expectedAmount
      else
        verifySplTransferInTransaction cfg meta recipient expectedAmount token

/-- `verify_transaction` (src/multichain.rs lines 173-223): parse the
signature, fetch the confirmed transaction through the network oracle,
fail closed when the metadata is missing or reports an on-chain error,
then check the main leg and the fee leg; overall validity is the
conjunction of the two legs. -/
def verifyTransaction (cfg : Config) (env : ChainEnv)
    (getTx : String → Except String ConfirmedTransaction)
    (signatureStr : String) (expectedRecipient : Pubkey)
    (expectedAmount : F64) (expectedToken : String) :
    Except String TransactionVerification :=
  match env.parseSignature signatureStr with
  | none => .error "Invalid signature"
  | some sig =>
  match getTx sig with
  | .error e => .error e
  | .ok tx =>
  if (tx.meta.map (fun m => m.err.isSome)).getD true then
    .ok { is_valid := false, details := "Transaction failed or not found",
          main_transfer_valid := false, fee_transfer_valid := false }
  else
  match verifyTransferInTransaction cfg tx expectedRecipient expectedAmount expectedToken with
  | .error e => .error e
  | .ok mainTransferValid =>
  match env.parsePubkey cfg.solana.fee_wallet with
  | none => .error "Invalid fee wallet address"
  | some feeRecipient =>
  match verifyTransferInTransaction cfg tx feeRecipient cfg.solana.fee_amount
          cfg.solana.fee_token with
  | .error e => .error e
  | .ok feeTransferValid =>
  .ok { is_valid := mainTransferValid && feeTransferValid,
        details := "Main transfer: " ++ (if mainTransferValid then "true" else "false")
          ++ ", Fee transfer: " ++ (if feeTransferValid then "true" else "false"),
        main_transfer_valid := mainTransferValid,
        fee_transfer_valid := feeTransferValid }

/-- `PaymentService::verify_payment` (src/payment.rs lines 166-239):
look the payment up; if `now > expires_at`, persist `Expired` and
return a not-verified result (this check runs BEFORE the
already-completed check); else if already `Completed`, return success
without touching the store or the network; otherwise verify on chain
and persist `Completed` with the signature and `verified_at := now` on
success, leaving the store untouched on a mismatch. -/
def verifyPayment (cfg : Config) (env : ChainEnv)
    (getTx : String → Except String ConfirmedTransaction)
    (store : Store) (paymentId signatureStr : String) (now : ℤ) :
    Except String (VerificationResult × Store) :=
  match getPayment store paymentId with
  | none => .error "Payment not found"
  | some payment =>
  if now > payment.expires_at then
    .ok ({ success := false, status := .Expired, verified := false,
           signature := none, details := "Payment has expired" },
         savePayment store paymentId { payment with status := .Expired })
  else if payment.status = .Completed then
    .ok ({ success := true, status := .Completed, verified := true,
           signature := payment.signature, details := "Already verified" },
         store)
  else
  match env.parsePubkey payment.recipient with
  | none => .error "Invalid recipient pubkey"
  | some recipient =>
  match verifyTransaction cfg env getTx signatureStr recipient
          payment.amount payment.token with
  | .error e => .error e
  | .ok verification =>
  if verification.is_valid then
    .ok ({ success := true, status := .Completed, verified := true,
           signature := some signatureStr, details := verification.details },
         savePayment store paymentId
           { payment with status := .Completed,
                          signature := some signatureStr,
                          verified_at := some now })
  else
    .ok ({ success := false, status := .Pending, verified := false,
           signature := none, details := verification.details },
         store)

/-- `CreatePaymentRequest` from src/payment.rs. -/
structure CreatePaymentRequest where
  recipient : String
  amount : F64
  token : String
  label : Option String
  message : Option String
deriving DecidableEq

/-- `PaymentService::validate_payment_request` (src/payment.rs lines
242-268): address parse check, `amount <= 0.0` check, token-support
check, `amount > 1_000_000.0` ceiling check — the two amount
comparisons are IEEE comparisons, both false for NaN. -/
def validatePaymentRequest (cfg : Config) (env : ChainEnv)
    (req : CreatePaymentRequest) : Except String Unit :=
  if !(env.parsePubkey req.recipient).isSome then
    .error ("Invalid recipient address: " ++ req.recipient)
  else if req.amount.le (F64.num 0) then
    .error "Amount must be positive"
  else if !(cfg.isTokenSupported req.token) then
    .error ("Token " ++ req.token ++ " not supported")
  else if F64.lt (F64.num 1000000) req.amount then
    .error "Amount too large"
  else
    .ok ()

/-- The ngrok base URL literal from `create_solana_pay_url`. -/
def ngrokUrl : String := "https://e266cfdadf7e.ngrok-free.app"

/-- `PaymentService::create_solana_pay_url` (src/payment.rs lines
138-158): build the Solana Pay transaction-request URL and render its
QR code through the external generator. -/
def createSolanaPayUrl (qrGen : String → Except String String)
    (paymentId : String) : Except String (String × String) :=
  let url := "solana:" ++ ngrokUrl ++ "/api/payment/" ++ paymentId ++ "/transaction"
  match qrGen url with
  | .error e => .error e
  | .ok qrCode => .ok (url, qrCode)

/-- `PaymentService::create_payment_with_fee` (src/payment.rs lines
89-135): validate, build URL and QR code, assemble the `Pending`
payment (fee fields copied from the configuration, expiry 30 minutes
after creation), and save it.  The freshly generated
`pay_{uuid}` identifier is passed in as `paymentId`. -/
def createPaymentWithFee (cfg : Config) (env : ChainEnv)
    (qrGen : String → Except String String)
    (req : CreatePaymentRequest) (paymentId : String) (now : ℤ)
    (store : Store) : Except String (Payment × Store) :=
  match validatePaymentRequest cfg env req with
  | .error e => .error e
  | .ok _ =>
  match createSolanaPayUrl qrGen paymentId with
  | .error e => .error e
  | .ok (url, qrCode) =>
  let payment : Payment :=
    { id := paymentId
      recipient := req.recipient
      amount := req.amount
      token := req.token
      fee_recipient := cfg.solana.fee_wallet
      fee_amount := cfg.solana.fee_amount
      fee_token := cfg.solana.fee_token
      label := req.label.getD ("Payment " ++ req.token)
      message := req.message.getD
        (env.fmtF64 req.amount ++ " " ++ req.token ++ " + "
          ++ env.fmtF64 cfg.solana.fee_amount ++ " " ++ cfg.solana.fee_token ++ " fee")
      url := url
      qr_code := qrCode
      status := .Pending
      created_at := now
      expires_at := now + 30 * 60
      signature := none
      verified_at := none }
  .ok (payment, savePayment store paymentId payment)

/-- The shared service state: the payment store plus the last observed
wall-clock instant (used to express that `Utc::now()` is monotone along
a run). -/
structure World where
  store : Store
  clock : ℤ

/-- One service-level operation on the shared state.  Only successful
calls mutate the store (every error path of the Rust code returns
before writing), so error outcomes are covered by `tick`.  The
freshness hypothesis on `create` models the uniqueness of the
`pay_{uuid}` identifiers. -/
inductive Step : World → World → Prop where
  | create (w : World) (t : ℤ) (cfg : Config) (env : ChainEnv)
      (qrGen : String → Except String String) (req : CreatePaymentRequest)
      (pid : String) (p : Payment) (s' : Store) :
      w.clock ≤ t → getPayment w.store pid = none →
      createPaymentWithFee cfg env qrGen req pid t w.store = .ok (p, s') →
      Step w ⟨s', t⟩
  | verify (w : World) (t : ℤ) (cfg : Config) (env : ChainEnv)
      (getTx : String → Except String ConfirmedTransaction)
      (pid sig : String) (r : VerificationResult) (s' : Store) :
      w.clock ≤ t →
      verifyPayment cfg env getTx w.store pid sig t = .ok (r, s') →
      Step w ⟨s', t⟩
  | cleanup (w : World) (t : ℤ) :
      w.clock ≤ t →
      Step w ⟨(cleanupExpiredPayments w.store t).1, t⟩
  | deleteOp (w : World) (t : ℤ) (pid : String) :
      w.clock ≤ t →
      Step w ⟨removeKey w.store pid, t⟩
  | tick (w : World) (t : ℤ) :
      w.clock ≤ t →
      Step w ⟨w.store, t⟩

/-- States reachable from an empty store by service operations under a
monotone clock. -/
inductive Reachable : World → Prop where
  | init (t : ℤ) : Reachable ⟨[], t⟩
  | step {w w' : World} : Reachable w → Step w w' → Reachable w'

/-- Invariant carried along every run: keys are unique, no stored
payment is `Failed`, and an `Expired` payment's deadline lies strictly
in the past. -/
def WorldInv (w : World) : Prop :=
  keysNodup w.store ∧
    ∀ pid p, getPayment w.store pid = some p →
      p.status ≠ .Failed ∧ (p.status = .Expired → p.expires_at < w.clock)

/-- A concrete chain environment for witnesses and counterexamples:
parsing always succeeds and returns the input, the associated token
address is `owner ++ "." ++ mint`. -/
def envW : ChainEnv :=
  { parsePubkey := fun s => some s
    parseSignature := fun s => some s
    getAssociatedTokenAddress := fun owner mint => owner ++ "." ++ mint
    fmtF64 := fun _ => "x" }

/-- An attempt oracle on which every attempt succeeds at once. -/
def attW : String → ℕ → Option Blockhash := fun _ _ => some "BLOCKHASH"

/-- An attempt oracle on which the first two endpoints fail every
attempt and the third succeeds. -/
def attC : String → ℕ → Option Blockhash :=
  fun e _ => if e = "https://rpc.ankr.com/solana" then some "HC" else none

/-- A QR generator for witnesses: succeeds and returns the URL. -/
def qrW : String → Except String String := fun s => .ok s

/-- A network-transaction oracle that always fails; used to show a code
path never consults the network. -/
def getTxNever : String → Except String ConfirmedTransaction :=
  fun _ => .error "network should not be reached"

/-- A pending SOL payment of 1.5 SOL, created at 0, expiring at 1800. -/
def paymentW : Payment :=
  { id := "pay_w", recipient := "RCPT", amount := F64.num (3 / 2),
    token := "SOL", fee_recipient := "FEEW", fee_amount := F64.num 1,
    fee_token := "USDC", label := "", message := "", url := "",
    qr_code := "", status := .Pending, created_at := 0,
    expires_at := 1800, signature := none, verified_at := none }

/-- The transaction the composer builds for `paymentW` under `envW`
(the main-leg amount evaluates to 1,500,000,000 lamports and the fee
amount to 1,000,000 micro-USDC; see the minor-unit lemmas). -/
def txW : Transaction :=
  { feePayer := "PAYER"
    instructions :=
      [ .transferSol "PAYER" "RCPT" (tokenMinorAmount paymentW.amount 9),
        .createAssociatedTokenAccount "PAYER" "FEEW" usdcMint,
        .transferSpl splTokenProgramId ("PAYER." ++ usdcMint)
          ("FEEW." ++ usdcMint) "PAYER"
          (tokenMinorAmount paymentW.fee_amount 6) ]
    recentBlockhash := "BLOCKHASH" }

/-- A payment whose configured fee token is native SOL (1 SOL fee):
the composer nevertheless builds a USDC fee leg. -/
def paymentFeeSol : Payment :=
  { id := "pay_fs", recipient := "RCPT", amount := F64.num 1,
    token := "SOL", fee_recipient := "FEEW", fee_amount := F64.num 1,
    fee_token := "SOL", label := "", message := "", url := "",
    qr_code := "", status := .Pending, created_at := 0,
    expires_at := 1800, signature := none, verified_at := none }

/-- The transaction the composer builds for `paymentFeeSol`. -/
def txC7 : Transaction :=
  { feePayer := "PAYER"
    instructions :=
      [ .transferSol "PAYER" "RCPT" (tokenMinorAmount paymentFeeSol.amount 9),
        .createAssociatedTokenAccount "PAYER" "FEEW" usdcMint,
        .transferSpl splTokenProgramId ("PAYER." ++ usdcMint)
          ("FEEW." ++ usdcMint) "PAYER"
          (tokenMinorAmount paymentFeeSol.fee_amount 6) ]
    recentBlockhash := "BLOCKHASH" }

/-- An already-completed payment (verified at 900, expiring at 1800). -/
def p2 : Payment :=
  { id := "pay_2", recipient := "RCPT", amount := F64.num 1,
    token := "SOL", fee_recipient := "FEEW", fee_amount := F64.num 1,
    fee_token := "USDC", label := "", message := "", url := "",
    qr_code := "", status := .Completed, created_at := 0,
    expires_at := 1800, signature := some "OLDSIG",
    verified_at := some 900 }

def store2 : Store := [("pay_2", p2)]

/-- A completed payment for the state-machine counterexample. -/
def p3 : Payment :=
  { id := "pay_3", recipient := "RCPT", amount := F64.num 1,
    token := "SOL", fee_recipient := "FEEW", fee_amount := F64.num 1,
    fee_token := "USDC", label := "", message := "", url := "",
    qr_code := "", status := .Completed, created_at := 0,
    expires_at := 1800, signature := some "OLDSIG",
    verified_at := some 900 }

def store3 : Store := [("pay_3", p3)]

/-- A pending payment created at 0 with the 30-minute window. -/
def p4 : Payment :=
  { id := "pay_4", recipient := "RCPT", amount := F64.num 1,
    token := "SOL", fee_recipient := "FEEW", fee_amount := F64.num 1,
    fee_token := "USDC", label := "", message := "", url := "",
    qr_code := "", status := .Pending, created_at := 0,
    expires_at := 0 + 30 * 60, signature := none, verified_at := none }

def store4 : Store := [("pay_4", p4)]

/-- Sweep witnesses: one entry expired at "now = 200", one not. -/
def p9a : Payment :=
  { id := "a", recipient := "RCPT", amount := F64.num 1,
    token := "SOL", fee_recipient := "FEEW", fee_amount := F64.num 1,
    fee_token := "USDC", label := "", message := "", url := "",
    qr_code := "", status := .Pending, created_at := 0,
    expires_at := 100, signature := none, verified_at := none }

def p9b : Payment :=
  { id := "b", recipient := "RCPT", amount := F64.num 1,
    token := "SOL", fee_recipient := "FEEW", fee_amount := F64.num 1,
    fee_token := "USDC", label := "", message := "", url := "",
    qr_code := "", status := .Pending, created_at := 0,
    expires_at := 300, signature := none, verified_at := none }

def storeW9 : Store := [("a", p9a), ("b", p9b)]

/-- Create request used for the state-machine create witness. -/
def reqW : CreatePaymentRequest :=
  { recipient := "RCPT", amount := F64.num 2, token := "SOL",
    label := none, message := none }

/-- The payment `createPaymentWithFee defaultConfig envW qrW reqW
"pay_w1" 5 []` builds. -/
def pcW : Payment :=
  { id := "pay_w1", recipient := "RCPT", amount := F64.num 2,
    token := "SOL",
    fee_recipient := "9E9ME8Xjrnnz5tyLqPWUbXVbPjXusEp9NdjKeugDjW5t",
    fee_amount := F64.num 1, fee_token := "USDC",
    label := "Payment SOL", message := "x SOL + x USDC fee",
    url := "solana:https://e266cfdadf7e.ngrok-free.app/api/payment/pay_w1/transaction",
    qr_code := "solana:https://e266cfdadf7e.ngrok-free.app/api/payment/pay_w1/transaction",
    status := .Pending, created_at := 5, expires_at := 5 + 30 * 60,
    signature := none, verified_at := none }

/-- SOL-leg verification fixtures: recipient delta exactly 1 SOL,
exactly 1 + 1e-6 SOL (the tolerance boundary), and 1.01 SOL. -/
def tx6pass : ConfirmedTransaction :=
  { meta := some
      { err := none, preBalances := [0], postBalances := [1000000000],
        preTokenBalances := none, postTokenBalances := none }
    accountKeys := ["RCPT"] }

def tx6boundary : ConfirmedTransaction :=
  { meta := some
      { err := none, preBalances := [0], postBalances := [1000001000],
        preTokenBalances := none, postTokenBalances := none }
    accountKeys := ["RCPT"] }

def tx6off : ConfirmedTransaction :=
  { meta := some
      { err := none, preBalances := [0], postBalances := [1010000000],
        preTokenBalances := none, postTokenBalances := none }
    accountKeys := ["RCPT"] }

/-- The create request carrying the IEEE NaN amount. -/
def reqNan : CreatePaymentRequest :=
  { recipient := "RCPT", amount := F64.nan, token := "SOL",
    label := none, message := none }

/-- The payment record the service builds and stores for `reqNan`. -/
def pNan : Payment :=
  { id := "pay_nan", recipient := "RCPT", amount := F64.nan,
    token := "SOL",
    fee_recipient := "9E9ME8Xjrnnz5tyLqPWUbXVbPjXusEp9NdjKeugDjW5t",
    fee_amount := F64.num 1, fee_token := "USDC",
    label := "Payment SOL", message := "x SOL + x USDC fee",
    url := "solana:https://e266cfdadf7e.ngrok-free.app/api/payment/pay_nan/transaction",
    qr_code := "solana:https://e266cfdadf7e.ngrok-free.app/api/payment/pay_nan/transaction",
    status := .Pending, created_at := 0, expires_at := 0 + 30 * 60,
    signature := none, verified_at := none }

lemma getPayment_cons_self (k : String) (p : Payment) (rest : Store) :
    getPayment ((k, p) :: rest) k = some p := by
  simp [getPayment]

lemma getPayment_cons_ne {k₀ k : String} (p₀ : Payment) (rest : Store)
    (h : k₀ ≠ k) : getPayment ((k₀, p₀) :: rest) k = getPayment rest k := by
  simp [getPayment, h]

lemma getPayment_eq_none_iff (s : Store) (k : String) :
    getPayment s k = none ↔ k ∉ s.map Prod.fst := by
  induction s with
  | nil => simp [getPayment]
  | cons e rest ih =>
      obtain ⟨k₀, p₀⟩ := e
      by_cases h : k₀ = k
      · subst h; simp [getPayment]
      · have hne : k ≠ k₀ := fun hh => h hh.symm
        rw [getPayment_cons_ne p₀ rest h]
        simp [ih, hne]

lemma getPayment_removeKey_self (s : Store) (k : String) :
    getPayment (removeKey s k) k = none := by
  induction s with
  | nil => simp [removeKey, getPayment]
  | cons e rest ih =>
      obtain ⟨k₀, p₀⟩ := e
      by_cases h : k₀ = k
      · simpa [removeKey, h] using ih
      · simpa [removeKey, getPayment, h] using ih

lemma getPayment_removeKey_ne (s : Store) (k k' : String) (h : k' ≠ k) :
    getPayment (removeKey s k) k' = getPayment s k' := by
  induction s with
  | nil => simp [removeKey]
  | cons e rest ih =>
      obtain ⟨k₀, p₀⟩ := e
      by_cases h0 : k₀ = k
      · subst h0
        have hne : k₀ ≠ k' := fun hh => h hh.symm
        rw [show removeKey ((k₀, p₀) :: rest) k₀ = removeKey rest k₀ by
              simp [removeKey],
            getPayment_cons_ne p₀ rest hne, ih]
      · by_cases h1 : k₀ = k'
        · subst h1
          simp [removeKey, h0, getPayment]
        · rw [show removeKey ((k₀, p₀) :: rest) k = (k₀, p₀) :: removeKey rest k by
                simp [removeKey, h0],
              getPayment_cons_ne p₀ (removeKey rest k) h1,
              getPayment_cons_ne p₀ rest h1, ih]

lemma getPayment_savePayment_self (s : Store) (k : String) (p : Payment) :
    getPayment (savePayment s k p) k = some p := by
  simp [savePayment, getPayment]

lemma getPayment_savePayment_ne (s : Store) (k k' : String) (p : Payment)
    (h : k' ≠ k) :
    getPayment (savePayment s k p) k' = getPayment s k' := by
  have hk : k ≠ k' := fun hh => h hh.symm
  simp [savePayment, getPayment, hk, getPayment_removeKey_ne s k k' h]

lemma mem_keys_removeKey {s : Store} {k k' : String}
    (h : k' ∈ (removeKey s k).map Prod.fst) : k' ∈ s.map Prod.fst := by
  induction s with
  | nil => simp [removeKey] at h
  | cons e rest ih =>
      obtain ⟨k₀, p₀⟩ := e
      by_cases h0 : k₀ = k
      · simp only [removeKey, h0, if_pos rfl] at h
        exact List.mem_cons_of_mem _ (ih h)
      · simp only [removeKey, if_neg h0, List.map_cons, List.mem_cons] at h ⊢
        exact h.elim Or.inl (fun hh => Or.inr (ih hh))

lemma keysNodup_removeKey {s : Store} (k : String) (h : keysNodup s) :
    keysNodup (removeKey s k) := by
  induction s with
  | nil => simpa [removeKey] using h
  | cons e rest ih =>
      obtain ⟨k₀, p₀⟩ := e
      simp only [keysNodup, List.map_cons, List.nodup_cons] at h
      by_cases h0 : k₀ = k
      · simpa [keysNodup, removeKey, h0] using ih h.2
      · simp only [keysNodup, removeKey, if_neg h0, List.map_cons, List.nodup_cons]
        exact ⟨fun hm => h.1 (mem_keys_removeKey hm), ih h.2⟩

lemma keysNodup_savePayment {s : Store} (k : String) (p : Payment)
    (h : keysNodup s) : keysNodup (savePayment s k p) := by
  simp only [keysNodup, savePayment, List.map_cons, List.nodup_cons]
  refine ⟨fun hm => ?_, keysNodup_removeKey k h⟩
  have := getPayment_removeKey_self s k
  rw [getPayment_eq_none_iff] at this
  exact this hm

lemma cleanupExpiredPayments_fst (s : Store) (now : ℤ) :
    (cleanupExpiredPayments s now).1 =
      s.filter (fun e => !decide (now > e.2.expires_at)) := by
  induction s with
  | nil => simp [cleanupExpiredPayments]
  | cons e rest ih =>
      obtain ⟨k₀, p₀⟩ := e
      by_cases h : now > p₀.expires_at
      · simp [cleanupExpiredPayments, h, ih, List.filter]
      · simp [cleanupExpiredPayments, h, ih, List.filter]

lemma cleanupExpiredPayments_count (s : Store) (now : ℤ) :
    (cleanupExpiredPayments s now).2 =
      (s.filter (fun e => decide (now > e.2.expires_at))).length := by
  induction s with
  | nil => simp [cleanupExpiredPayments]
  | cons e rest ih =>
      obtain ⟨k₀, p₀⟩ := e
      by_cases h : now > p₀.expires_at
      · simp [cleanupExpiredPayments, h, ih, List.filter]
      · simp [cleanupExpiredPayments, h, ih, List.filter]

lemma getPayment_filter_of_none {s : Store} {k : String}
    (f : String × Payment → Bool) (h : getPayment s k = none) :
    getPayment (s.filter f) k = none := by
  rw [getPayment_eq_none_iff] at h ⊢
  intro hm
  exact h (by
    obtain ⟨e, he, rfl⟩ := List.mem_map.mp hm
    exact List.mem_map.mpr ⟨e, (List.mem_filter.mp he).1, rfl⟩)

lemma getPayment_filter_none {s : Store} {k : String} {p : Payment}
    {f : String × Payment → Bool} (hnd : keysNodup s)
    (hget : getPayment s k = some p) (hf : f (k, p) = false) :
    getPayment (s.filter f) k = none := by
  induction s with
  | nil => simp [getPayment] at hget
  | cons e rest ih =>
      obtain ⟨k₀, p₀⟩ := e
      simp only [keysNodup, List.map_cons, List.nodup_cons] at hnd
      by_cases h0 : k₀ = k
      · subst h0
        rw [getPayment_cons_self] at hget
        have hp : p₀ = p := by simpa using hget
        subst hp
        have hrest : getPayment rest k₀ = none :=
          (getPayment_eq_none_iff rest k₀).mpr hnd.1
        simp only [List.filter, hf]
        exact getPayment_filter_of_none f hrest
      · rw [getPayment_cons_ne p₀ rest h0] at hget
        have := ih hnd.2 hget
        cases hfe : f (k₀, p₀) <;>
          simp_all [List.filter, getPayment_cons_ne p₀ _ h0]

lemma getPayment_filter_some {s : Store} {k : String} {p : Payment}
    {f : String × Payment → Bool} (hnd : keysNodup s)
    (hget : getPayment s k = some p) (hf : f (k, p) = true) :
    getPayment (s.filter f) k = some p := by
  induction s with
  | nil => simp [getPayment] at hget
  | cons e rest ih =>
      obtain ⟨k₀, p₀⟩ := e
      simp only [keysNodup, List.map_cons, List.nodup_cons] at hnd
      by_cases h0 : k₀ = k
      · subst h0
        rw [getPayment_cons_self] at hget
        have hp : p₀ = p := by simpa using hget
        subst hp
        simp only [List.filter, hf]
        exact getPayment_cons_self _ _ _
      · rw [getPayment_cons_ne p₀ rest h0] at hget
        have := ih hnd.2 hget
        cases hfe : f (k₀, p₀) <;>
          simp_all [List.filter, getPayment_cons_ne p₀ _ h0]

lemma getPayment_filter_inv {s : Store} {k : String} {p : Payment}
    {f : String × Payment → Bool} (hnd : keysNodup s)
    (h : getPayment (s.filter f) k = some p) :
    getPayment s k = some p ∧ f (k, p) = true := by
  induction s with
  | nil => simp [getPayment] at h
  | cons e rest ih =>
      obtain ⟨k₀, p₀⟩ := e
      simp only [keysNodup, List.map_cons, List.nodup_cons] at hnd
      cases hfe : f (k₀, p₀) with
      | false =>
          simp only [List.filter, hfe] at h
          have := ih hnd.2 h
          by_cases h0 : k₀ = k
          · subst h0
            rw [(getPayment_eq_none_iff rest k₀).mpr hnd.1] at this
            exact absurd this.1 (by simp)
          · rw [getPayment_cons_ne p₀ rest h0]
            exact this
      | true =>
          simp only [List.filter, hfe] at h
          by_cases h0 : k₀ = k
          · subst h0
            rw [getPayment_cons_self] at h
            have hp : p₀ = p := by simpa using h
            subst hp
            exact ⟨getPayment_cons_self _ _ _, hfe⟩
          · rw [getPayment_cons_ne p₀ _ h0] at h
            rw [getPayment_cons_ne p₀ rest h0]
            exact ih hnd.2 h

lemma keysNodup_filter {s : Store} (f : String × Payment → Bool)
    (h : keysNodup s) : keysNodup (s.filter f) := by
  unfold keysNodup at h ⊢
  exact h.sublist (List.Sublist.map Prod.fst (List.filter_sublist s))

lemma createPaymentWithFee_ok {cfg : Config} {env : ChainEnv}
    {qrGen : String → Except String String} {req : CreatePaymentRequest}
    {pid : String} {now : ℤ} {store : Store} {p : Payment} {s' : Store}
    (h : createPaymentWithFee cfg env qrGen req pid now store = .ok (p, s')) :
    p.status = .Pending ∧ p.created_at = now ∧ p.expires_at = now + 30 * 60 ∧
      p.amount = req.amount ∧ s' = savePayment store pid p := by
  unfold createPaymentWithFee at h
  cases hv : validatePaymentRequest cfg env req with
  | error e => rw [hv] at h; exact absurd h (by simp)
  | ok u =>
      rw [hv] at h
      cases hu : createSolanaPayUrl qrGen pid with
      | error e => rw [hu] at h; exact absurd h (by simp)
      | ok pair =>
          obtain ⟨url, qrCode⟩ := pair
          rw [hu] at h
          simp only [Except.ok.injEq, Prod.mk.injEq] at h
          obtain ⟨hp, hs⟩ := h
          subst hp
          exact ⟨rfl, rfl, rfl, rfl, hs.symm⟩

lemma verifyPayment_of_expired {cfg : Config} {env : ChainEnv}
    {getTx : String → Except String ConfirmedTransaction} {store : Store}
    {pid sig : String} {now : ℤ} {p : Payment}
    (hget : getPayment store pid = some p) (hexp : now > p.expires_at) :
    verifyPayment cfg env getTx store pid sig now =
      .ok ({ success := false, status := .Expired, verified := false,
             signature := none, details := "Payment has expired" },
           savePayment store pid { p with status := .Expired }) := by
  unfold verifyPayment
  rw [hget]
  simp [hexp]

lemma verifyPayment_of_completed {cfg : Config} {env : ChainEnv}
    {getTx : String → Except String ConfirmedTransaction} {store : Store}
    {pid sig : String} {now : ℤ} {p : Payment}
    (hget : getPayment store pid = some p) (hexp : ¬ now > p.expires_at)
    (hst : p.status = .Completed) :
    verifyPayment cfg env getTx store pid sig now =
      .ok ({ success := true, status := .Completed, verified := true,
             signature := p.signature, details := "Already verified" },
           store) := by
  unfold verifyPayment
  rw [hget]
  simp [hexp, hst]

lemma verifyPayment_ok_cases {cfg : Config} {env : ChainEnv}
    {getTx : String → Except String ConfirmedTransaction} {store : Store}
    {pid sig : String} {now : ℤ} {r : VerificationResult} {s' : Store}
    (h : verifyPayment cfg env getTx store pid sig now = .ok (r, s')) :
    ∃ p, getPayment store pid = some p ∧
      ((now > p.expires_at ∧
          r = { success := false, status := .Expired, verified := false,
                signature := none, details := "Payment has expired" } ∧
          s' = savePayment store pid { p with status := .Expired }) ∨
       (¬ now > p.expires_at ∧ p.status = .Completed ∧ s' = store) ∨
       (¬ now > p.expires_at ∧ p.status ≠ .Completed ∧
          (s' = savePayment store pid
             { p with status := .Completed, signature := some sig,
                      verified_at := some now } ∨
           s' = store))) := by
  unfold verifyPayment at h
  split at h
  · exact absurd h (by simp)
  · rename_i p hget
    refine ⟨p, hget, ?_⟩
    split at h
    · rename_i hexp
      simp only [Except.ok.injEq, Prod.mk.injEq] at h
      exact Or.inl ⟨hexp, h.1.symm, h.2.symm⟩
    · rename_i hexp
      split at h
      · rename_i hst
        simp only [Except.ok.injEq, Prod.mk.injEq] at h
        exact Or.inr (Or.inl ⟨hexp, hst, h.2.symm⟩)
      · rename_i hst
        refine Or.inr (Or.inr ⟨hexp, hst, ?_⟩)
        split at h
        · exact absurd h (by simp)
        · split at h
          · exact absurd h (by simp)
          · split at h
            · simp only [Except.ok.injEq, Prod.mk.injEq] at h
              exact Or.inl h.2.symm
            · simp only [Except.ok.injEq, Prod.mk.injEq] at h
              exact Or.inr h.2.symm

lemma mainLegInstructions_sol {env : ChainEnv} {payment : Payment}
    {payer recipient : Pubkey} (htok : payment.token = "SOL") :
    mainLegInstructions env payment payer recipient =
      .ok [.transferSol payer recipient (tokenMinorAmount payment.amount 9)] := by
  simp [mainLegInstructions, htok]

lemma mainLegInstructions_usdc {env : ChainEnv} {payment : Payment}
    {payer recipient mint : Pubkey} (htok : payment.token = "USDC")
    (hm : env.parsePubkey usdcMint = some mint) :
    mainLegInstructions env payment payer recipient =
      .ok [.createAssociatedTokenAccount payer recipient mint,
           .transferSpl splTokenProgramId
             (env.getAssociatedTokenAddress payer mint)
             (env.getAssociatedTokenAddress recipient mint)
             payer (tokenMinorAmount payment.amount 6)] := by
  simp [mainLegInstructions, htok, hm]

lemma mainLegInstructions_usdt {env : ChainEnv} {payment : Payment}
    {payer recipient mint : Pubkey} (htok : payment.token = "USDT")
    (hm : env.parsePubkey usdtMint = some mint) :
    mainLegInstructions env payment payer recipient =
      .ok [.createAssociatedTokenAccount payer recipient mint,
           .transferSpl splTokenProgramId
             (env.getAssociatedTokenAddress payer mint)
             (env.getAssociatedTokenAddress recipient mint)
             payer (tokenMinorAmount payment.amount 6)] := by
  simp [mainLegInstructions, htok, hm]

lemma mainLegInstructions_ok_token {env : ChainEnv} {payment : Payment}
    {payer recipient : Pubkey} {l : List SolInstruction}
    (h : mainLegInstructions env payment payer recipient = .ok l) :
    payment.token = "SOL" ∨ payment.token = "USDC" ∨ payment.token = "USDT" := by
  by_cases h1 : payment.token = "SOL"
  · exact Or.inl h1
  · by_cases h2 : payment.token = "USDC"
    · exact Or.inr (Or.inl h2)
    · by_cases h3 : payment.token = "USDT"
      · exact Or.inr (Or.inr h3)
      · exfalso
        simp [mainLegInstructions, h1, h2, h3] at h

lemma mainLegInstructions_ok_transfers {env : ChainEnv} {payment : Payment}
    {payer recipient : Pubkey} {l : List SolInstruction}
    (h : mainLegInstructions env payment payer recipient = .ok l) :
    ∃ mainTransfer,
      l.filter SolInstruction.isTransfer = [mainTransfer] ∧
      mainTransfer.transferAmount =
        tokenMinorAmount payment.amount (if payment.token = "SOL" then 9 else 6) ∧
      (∀ i ∈ l, i.isTransfer = false →
        ∃ a b c, i = .createAssociatedTokenAccount a b c) := by
  rcases mainLegInstructions_ok_token h with h1 | h2 | h3
  · rw [mainLegInstructions_sol h1] at h
    have hl : l = [.transferSol payer recipient (tokenMinorAmount payment.amount 9)] := by
      simpa using h.symm
    subst hl
    exact ⟨.transferSol payer recipient (tokenMinorAmount payment.amount 9),
      by simp [List.filter, SolInstruction.isTransfer],
      by simp [SolInstruction.transferAmount, h1],
      by simp [SolInstruction.isTransfer]⟩
  · have hne : payment.token ≠ "SOL" := by simp [h2]
    cases hm : env.parsePubkey usdcMint with
    | none => rw [h2] at hne ⊢; simp [mainLegInstructions, h2, hm] at h
    | some mint =>
        rw [mainLegInstructions_usdc h2 hm] at h
        have hl : l = [.createAssociatedTokenAccount payer recipient mint,
           .transferSpl splTokenProgramId
             (env.getAssociatedTokenAddress payer mint)
             (env.getAssociatedTokenAddress recipient mint)
             payer (tokenMinorAmount payment.amount 6)] := by
          simpa using h.symm
        subst hl
        refine ⟨.transferSpl splTokenProgramId
            (env.getAssociatedTokenAddress payer mint)
            (env.getAssociatedTokenAddress recipient mint)
            payer (tokenMinorAmount payment.amount 6),
          by simp [List.filter, SolInstruction.isTransfer], ?_, ?_⟩
        · simp [SolInstruction.transferAmount, hne]
        · intro i hi hnt
          simp only [List.mem_cons, List.mem_singleton, List.not_mem_nil,
            or_false] at hi
          rcases hi with hi | hi
          · exact ⟨_, _, _, hi⟩
          · subst hi
            simp [SolInstruction.isTransfer] at hnt
  · have hne : payment.token ≠ "SOL" := by simp [h3]
    cases hm : env.parsePubkey usdtMint with
    | none => simp [mainLegInstructions, h3, hm] at h
    | some mint =>
        rw [mainLegInstructions_usdt h3 hm] at h
        have hl : l = [.createAssociatedTokenAccount payer recipient mint,
           .transferSpl splTokenProgramId
             (env.getAssociatedTokenAddress payer mint)
             (env.getAssociatedTokenAddress recipient mint)
             payer (tokenMinorAmount payment.amount 6)] := by
          simpa using h.symm
        subst hl
        refine ⟨.transferSpl splTokenProgramId
            (env.getAssociatedTokenAddress payer mint)
            (env.getAssociatedTokenAddress recipient mint)
            payer (tokenMinorAmount payment.amount 6),
          by simp [List.filter, SolInstruction.isTransfer], ?_, ?_⟩
        · simp [SolInstruction.transferAmount, hne]
        · intro i hi hnt
          simp only [List.mem_cons, List.mem_singleton, List.not_mem_nil,
            or_false] at hi
          rcases hi with hi | hi
          · exact ⟨_, _, _, hi⟩
          · subst hi
            simp [SolInstruction.isTransfer] at hnt

lemma createPaymentTransaction_ok {env : ChainEnv}
    {att : String → ℕ → Option Blockhash} {payment : Payment}
    {payerStr : String} {tx : Transaction}
    (h : createPaymentTransaction env att payment payerStr = .ok tx) :
    ∃ payer recipient feeRecipient mainInstructions usdcKey bh,
      env.parsePubkey payerStr = some payer ∧
      env.parsePubkey payment.recipient = some recipient ∧
      env.parsePubkey payment.fee_recipient = some feeRecipient ∧
      mainLegInstructions env payment payer recipient = .ok mainInstructions ∧
      env.parsePubkey usdcMint = some usdcKey ∧
      getRecentBlockhashWithRetries att = .ok bh ∧
      tx = { feePayer := payer,
             instructions := mainInstructions ++
               feeLegInstructions env payment payer feeRecipient usdcKey,
             recentBlockhash := bh } := by
  unfold createPaymentTransaction at h
  split at h
  · exact absurd h (by simp)
  rename_i payer hpayer
  split at h
  · exact absurd h (by simp)
  rename_i recipient hrecipient
  split at h
  · exact absurd h (by simp)
  rename_i feeRecipient hfee
  split at h
  · exact absurd h (by simp)
  rename_i mainInstructions hmain
  split at h
  · exact absurd h (by simp)
  rename_i usdcKey husdc
  split at h
  · exact absurd h (by simp)
  rename_i bh hbh
  simp only [Except.ok.injEq] at h
  exact ⟨payer, recipient, feeRecipient, mainInstructions, usdcKey, bh,
    hpayer, hrecipient, hfee, hmain, husdc, hbh, h.symm⟩

lemma getRecentBlockhashWithRetries_eq (att : String → ℕ → Option Blockhash) :
    getRecentBlockhashWithRetries att =
      match (attemptSequence att).findSome? id with
      | some h => .ok h
      | none => .error "All RPC endpoints failed after retries" := by
  unfold getRecentBlockhashWithRetries rpcEndpoints attemptSequence
  cases h1 : att "https://api.mainnet-beta.solana.com" 0 <;>
    cases h2 : att "https://api.mainnet-beta.solana.com" 1 <;>
      cases h3 : att "https://solana-api.projectserum.com" 0 <;>
        cases h4 : att "https://solana-api.projectserum.com" 1 <;>
          cases h5 : att "https://rpc.ankr.com/solana" 0 <;>
            cases h6 : att "https://rpc.ankr.com/solana" 1 <;>
              simp [tryEndpointsForBlockhash, List.findSome?, h1, h2, h3, h4, h5, h6]

lemma F64.abs_num (a : ℚ) : F64.abs (F64.num a) = F64.num |a| := by
  by_cases h : a < 0
  · simp [F64.abs, h, abs_of_neg h]
  · simp [F64.abs, h, abs_of_nonneg (not_lt.mp h)]

lemma F64.lt_num (a b : ℚ) : F64.lt (F64.num a) (F64.num b) = decide (a < b) := rfl

lemma F64.sub_num (a b : ℚ) : F64.sub (F64.num a) (F64.num b) = F64.num (a - b) := rfl

lemma F64.div_num {b : ℚ} (a : ℚ) (hb : b ≠ 0) :
    F64.div (F64.num a) (F64.num b) = F64.num (a / b) := by
  simp [F64.div, hb]

/-- The `< 0.000001` tolerance comparison on rational-valued operands is
exactly the strict rational comparison. -/
lemma toleranceCheck_num (a e : ℚ) :
    F64.lt (F64.abs (F64.sub (F64.num a) (F64.num e))) (F64.num (1 / 1000000)) =
      decide (|a - e| < 1 / 1000000) := by
  rw [F64.sub_num, F64.abs_num, F64.lt_num]

lemma tokenMinorAmount_num (q : ℚ) (d : ℕ) :
    tokenMinorAmount (F64.num q) d = f64ToU64 (F64.num (q * 10 ^ d)) := rfl

lemma f64ToU64_num_of_nonneg {q : ℚ} (h0 : 0 ≤ q) (hlt : q < 2 ^ 64) :
    f64ToU64 (F64.num q) = (⌊q⌋).toNat := by
  simp [f64ToU64, not_lt.mpr h0, not_le.mpr hlt]

lemma rtz_of_nonneg {q : ℚ} (h : 0 ≤ q) : rtz q = ⌊q⌋ := if_pos h

lemma tokenMinorAmount_eq_rtz {q : ℚ} {d : ℕ} (hpos : 0 < q)
    (hceil : q ≤ 1000000) (hd : d ≤ 9) :
    tokenMinorAmount (F64.num q) d = (rtz (q * 10 ^ d)).toNat := by
  have h10 : (0 : ℚ) < 10 ^ d := by positivity
  have h0 : (0 : ℚ) ≤ q * 10 ^ d := by positivity
  have hpow : (10 : ℚ) ^ d ≤ 10 ^ 9 := pow_le_pow_right₀ (by norm_num) hd
  have hlt : q * 10 ^ d < 2 ^ 64 := by
    calc q * 10 ^ d ≤ 1000000 * 10 ^ 9 :=
          mul_le_mul hceil hpow (le_of_lt h10) (by norm_num)
      _ < 2 ^ 64 := by norm_num
  rw [tokenMinorAmount_num, f64ToU64_num_of_nonneg h0 hlt, rtz_of_nonneg h0]

lemma verifyTransaction_ok_isValid {cfg : Config} {env : ChainEnv}
    {getTx : String → Except String ConfirmedTransaction}
    {sigStr : String} {rcpt : Pubkey} {amt : F64} {tok : String}
    {v : TransactionVerification}
    (h : verifyTransaction cfg env getTx sigStr rcpt amt tok = .ok v) :
    v.is_valid = (v.main_transfer_valid && v.fee_transfer_valid) := by
  unfold verifyTransaction at h
  split at h
  · exact absurd h (by simp)
  split at h
  · exact absurd h (by simp)
  split at h
  · simp only [Except.ok.injEq] at h
    rw [← h]
    rfl
  · split at h
    · exact absurd h (by simp)
    split at h
    · exact absurd h (by simp)
    split at h
    · exact absurd h (by simp)
    simp only [Except.ok.injEq] at h
    rw [← h]

lemma verifySolTransferInTransaction_eval {tx : ConfirmedTransaction}
    {meta : TxMeta} {idx : ℕ} {pre post : ℕ} {recipient : Pubkey} {e : ℚ}
    (hm : tx.meta = some meta)
    (hidx : tx.accountKeys.findIdx? (fun key => key = recipient) = some idx)
    (hpre : meta.preBalances.get? idx = some pre)
    (hpost : meta.postBalances.get? idx = some post) :
    verifySolTransferInTransaction tx recipient (F64.num e) =
      .ok (decide (|((post : ℚ) - (pre : ℚ)) / 10 ^ 9 - e| < 1 / 1000000)) := by
  unfold verifySolTransferInTransaction
  rw [hm]
  simp only [hidx, hpre, hpost, Option.getD_some]
  rw [F64.sub_num, F64.div_num _ (by positivity : ((10 : ℚ) ^ 9) ≠ 0),
    toleranceCheck_num]

lemma getPayment_removeKey_some {s : Store} {k k' : String} {q : Payment}
    (h : getPayment (removeKey s k) k' = some q) : getPayment s k' = some q := by
  by_cases hk : k' = k
  · subst hk
    rw [getPayment_removeKey_self] at h
    exact absurd h (by simp)
  · rwa [getPayment_removeKey_ne s k k' hk] at h

lemma step_preserves_inv {w w' : World} (hw : WorldInv w) (hs : Step w w') :
    WorldInv w' := by
  obtain ⟨hnd, hinv⟩ := hw
  cases hs with
  | create t cfg env qrGen req pid p s' hle hfresh hok =>
      obtain ⟨hst, _, _, _, hs'⟩ := createPaymentWithFee_ok hok
      subst hs'
      refine ⟨keysNodup_savePayment pid p hnd, ?_⟩
      intro pid' q hq
      by_cases hp : pid' = pid
      · subst hp
        rw [getPayment_savePayment_self] at hq
        have hq' : q = p := by simpa using hq.symm
        subst hq'
        exact ⟨by simp [hst], fun he => by simp [hst] at he⟩
      · rw [getPayment_savePayment_ne _ _ _ _ hp] at hq
        exact ⟨(hinv pid' q hq).1,
          fun he => lt_of_lt_of_le ((hinv pid' q hq).2 he) hle⟩
  | verify t cfg env getTx pid sig r s' hle hok =>
      obtain ⟨p, hget, hcases⟩ := verifyPayment_ok_cases hok
      rcases hcases with ⟨hexp, _, hs'⟩ | ⟨hexp, hst, hs'⟩ | ⟨hexp, hst, hs'⟩
      · subst hs'
        refine ⟨keysNodup_savePayment pid _ hnd, ?_⟩
        intro pid' q hq
        by_cases hp : pid' = pid
        · subst hp
          rw [getPayment_savePayment_self] at hq
          have hq' : q = { p with status := .Expired } := by simpa using hq.symm
          subst hq'
          exact ⟨by simp, fun _ => hexp⟩
        · rw [getPayment_savePayment_ne _ _ _ _ hp] at hq
          exact ⟨(hinv pid' q hq).1,
            fun he => lt_of_lt_of_le ((hinv pid' q hq).2 he) hle⟩
      · subst hs'
        exact ⟨hnd, fun pid' q hq => ⟨(hinv pid' q hq).1,
          fun he => lt_of_lt_of_le ((hinv pid' q hq).2 he) hle⟩⟩
      · rcases hs' with hs' | hs'
        · subst hs'
          refine ⟨keysNodup_savePayment pid _ hnd, ?_⟩
          intro pid' q hq
          by_cases hp : pid' = pid
          · subst hp
            rw [getPayment_savePayment_self] at hq
            have hq' :
                q = { p with status := .Completed, signature := some sig, verified_at := some t } := by
              simpa using hq.symm
            subst hq'
            exact ⟨by simp, fun he => by simp at he⟩
          · rw [getPayment_savePayment_ne _ _ _ _ hp] at hq
            exact ⟨(hinv pid' q hq).1,
              fun he => lt_of_lt_of_le ((hinv pid' q hq).2 he) hle⟩
        · subst hs'
          exact ⟨hnd, fun pid' q hq => ⟨(hinv pid' q hq).1,
            fun he => lt_of_lt_of_le ((hinv pid' q hq).2 he) hle⟩⟩
  | cleanup t hle =>
      refine ⟨?_, ?_⟩
      · show keysNodup (cleanupExpiredPayments w.store t).1
        rw [cleanupExpiredPayments_fst]
        exact keysNodup_filter _ hnd
      · intro pid q hq
        rw [show (⟨(cleanupExpiredPayments w.store t).1, t⟩ : World).store =
              (cleanupExpiredPayments w.store t).1 from rfl,
            cleanupExpiredPayments_fst] at hq
        obtain ⟨hq', _⟩ := getPayment_filter_inv hnd hq
        exact ⟨(hinv pid q hq').1,
          fun he => lt_of_lt_of_le ((hinv pid q hq').2 he) hle⟩
  | deleteOp t pid hle =>
      refine ⟨keysNodup_removeKey pid hnd, ?_⟩
      intro pid' q hq
      have hq' := getPayment_removeKey_some hq
      exact ⟨(hinv pid' q hq').1,
        fun he => lt_of_lt_of_le ((hinv pid' q hq').2 he) hle⟩
  | tick t hle =>
      exact ⟨hnd, fun pid q hq => ⟨(hinv pid q hq).1,
        fun he => lt_of_lt_of_le ((hinv pid q hq).2 he) hle⟩⟩

lemma reachable_inv {w : World} (h : Reachable w) : WorldInv w := by
  induction h with
  | init t =>
      exact ⟨List.nodup_nil, fun pid p hp => by simp [getPayment] at hp⟩
  | step hr hs ih => exact step_preserves_inv ih hs

/-- C1: for every payment whose token is supported (SOL, USDC or USDT),
the composed transaction contains exactly two transfer instructions —
the main leg's transfer first and the fee leg's transfer second — plus
zero or more recipient-account-preparation instructions, all combined
into one single transaction carrying exactly one recent blockhash (the
one freshness token returned by the retrying fetch), so the main and
fee transfers succeed or fail together. -/
theorem claim_c1_atomic_two_transfers
    (env : ChainEnv) (att : String → ℕ → Option Blockhash)
    (payment : Payment) (payerStr : String) (tx : Transaction)
    (_hsup : payment.token = "SOL" ∨ payment.token = "USDC" ∨
      payment.token = "USDT")
    (hok : createPaymentTransaction env att payment payerStr = .ok tx) :
    ∃ mainTransfer feeTransfer,
      tx.instructions.filter SolInstruction.isTransfer =
        [mainTransfer, feeTransfer] ∧
      mainTransfer.transferAmount =
        tokenMinorAmount payment.amount
          (if payment.token = "SOL" then 9 else 6) ∧
      (∃ payer feeRecipient usdcKey,
        env.parsePubkey payerStr = some payer ∧
        env.parsePubkey payment.fee_recipient = some feeRecipient ∧
        env.parsePubkey usdcMint = some usdcKey ∧
        feeTransfer = .transferSpl splTokenProgramId
          (env.getAssociatedTokenAddress payer usdcKey)
          (env.getAssociatedTokenAddress feeRecipient usdcKey)
          payer (tokenMinorAmount payment.fee_amount 6)) ∧
      (∀ i ∈ tx.instructions, i.isTransfer = false →
        ∃ a b c, i = .createAssociatedTokenAccount a b c) ∧
      (∃ bh, getRecentBlockhashWithRetries att = .ok bh ∧
        tx.recentBlockhash = bh) := by
  obtain ⟨payer, recipient, feeRecipient, mainInstructions, usdcKey, bh,
    hp, hr, hf, hm, hu, hbh, htx⟩ := createPaymentTransaction_ok hok
  subst htx
  obtain ⟨mainT, hfilter, hamt, hprep⟩ := mainLegInstructions_ok_transfers hm
  refine ⟨mainT,
    .transferSpl splTokenProgramId
      (env.getAssociatedTokenAddress payer usdcKey)
      (env.getAssociatedTokenAddress feeRecipient usdcKey)
      payer (tokenMinorAmount payment.fee_amount 6),
    ?_, hamt, ⟨payer, feeRecipient, usdcKey, hp, hf, hu, rfl⟩, ?_,
    ⟨bh, hbh, rfl⟩⟩
  · show (mainInstructions ++
      feeLegInstructions env payment payer feeRecipient usdcKey).filter
        SolInstruction.isTransfer = _
    rw [List.filter_append, hfilter]
    simp [feeLegInstructions, List.filter, SolInstruction.isTransfer]
  · intro i hi hnt
    simp only [List.mem_append] at hi
    rcases hi with hi | hi
    · exact hprep i hi hnt
    · simp only [feeLegInstructions, List.mem_cons, List.mem_singleton,
        List.not_mem_nil, or_false] at hi
      rcases hi with hi | hi
      · exact ⟨_, _, _, hi⟩
      · subst hi
        simp [SolInstruction.isTransfer] at hnt

/-- Witness for C1 at the concrete payment `paymentW` (1.5 SOL) under
`envW` and the always-succeeding attempt oracle. -/
theorem claim_c1_witness :
    ∃ mainTransfer feeTransfer,
      txW.instructions.filter SolInstruction.isTransfer =
        [mainTransfer, feeTransfer] ∧
      mainTransfer.transferAmount =
        tokenMinorAmount paymentW.amount
          (if paymentW.token = "SOL" then 9 else 6) ∧
      (∃ payer feeRecipient usdcKey,
        envW.parsePubkey "PAYER" = some payer ∧
        envW.parsePubkey paymentW.fee_recipient = some feeRecipient ∧
        envW.parsePubkey usdcMint = some usdcKey ∧
        feeTransfer = .transferSpl splTokenProgramId
          (envW.getAssociatedTokenAddress payer usdcKey)
          (envW.getAssociatedTokenAddress feeRecipient usdcKey)
          payer (tokenMinorAmount paymentW.fee_amount 6)) ∧
      (∀ i ∈ txW.instructions, i.isTransfer = false →
        ∃ a b c, i = .createAssociatedTokenAccount a b c) ∧
      (∃ bh, getRecentBlockhashWithRetries attW = .ok bh ∧
        txW.recentBlockhash = bh) :=
  claim_c1_atomic_two_transfers envW attW paymentW "PAYER" txW
    (Or.inl rfl) rfl

lemma f64ToU64_num_natCast (n : ℕ) (hn : (n : ℚ) < 2 ^ 64) :
    f64ToU64 (F64.num (n : ℚ)) = n := by
  rw [f64ToU64_num_of_nonneg (by positivity) hn, Int.floor_natCast]
  exact Int.toNat_natCast n

lemma tokenMinorAmount_3half_9 :
    tokenMinorAmount (F64.num (3 / 2)) 9 = 1500000000 := by
  rw [tokenMinorAmount_num,
    show ((3 : ℚ) / 2) * 10 ^ 9 = ((1500000000 : ℕ) : ℚ) by norm_num,
    f64ToU64_num_natCast _ (by norm_num)]

lemma tokenMinorAmount_5half_6 :
    tokenMinorAmount (F64.num (5 / 2)) 6 = 2500000 := by
  rw [tokenMinorAmount_num,
    show ((5 : ℚ) / 2) * 10 ^ 6 = ((2500000 : ℕ) : ℚ) by norm_num,
    f64ToU64_num_natCast _ (by norm_num)]

lemma tokenMinorAmount_one_6 :
    tokenMinorAmount (F64.num 1) 6 = 1000000 := by
  rw [tokenMinorAmount_num,
    show (1 : ℚ) * 10 ^ 6 = ((1000000 : ℕ) : ℚ) by norm_num,
    f64ToU64_num_natCast _ (by norm_num)]

/-- C5: for every positive amount within the validation ceiling (the
spec's invariant `amount ≤ 1,000,000`) and every supported decimal
precision (9 for SOL, 6 for USDC/USDT — in particular any `d ≤ 9`),
the composer's minor-unit amount equals round-toward-zero(amount ×
10^d); in particular 1.5 at 9 decimals yields 1,500,000,000 and 2.5 at
6 decimals yields 2,500,000, and for a SOL payment the composed
transaction's first instruction transfers exactly that amount. -/
theorem claim_c5_minor_units (q : ℚ) (d : ℕ) (hpos : 0 < q)
    (hceil : q ≤ 1000000) (hd : d ≤ 9) :
    tokenMinorAmount (F64.num q) d = (rtz (q * 10 ^ d)).toNat ∧
    tokenMinorAmount (F64.num (3 / 2)) 9 = 1500000000 ∧
    tokenMinorAmount (F64.num (5 / 2)) 6 = 2500000 ∧
    (∀ env att payment payerStr tx,
      payment.token = "SOL" →
      createPaymentTransaction env att payment payerStr = .ok tx →
      ∃ payer recipient rest,
        tx.instructions =
          .transferSol payer recipient (tokenMinorAmount payment.amount 9)
            :: rest) := by
  refine ⟨tokenMinorAmount_eq_rtz hpos hceil hd, tokenMinorAmount_3half_9,
    tokenMinorAmount_5half_6, ?_⟩
  intro env att payment payerStr tx htok hok
  obtain ⟨payer, recipient, feeRecipient, mainInstructions, usdcKey, bh,
    _, _, _, hm, _, _, htx⟩ := createPaymentTransaction_ok hok
  rw [mainLegInstructions_sol htok] at hm
  have hmain : mainInstructions =
      [.transferSol payer recipient (tokenMinorAmount payment.amount 9)] := by
    simpa using hm.symm
  subst htx hmain
  exact ⟨payer, recipient, _, rfl⟩

/-- Witness for C5 at amount 1.5 SOL (d = 9). -/
theorem claim_c5_witness :
    tokenMinorAmount (F64.num (3 / 2)) 9 = (rtz ((3 / 2 : ℚ) * 10 ^ 9)).toNat :=
  (claim_c5_minor_units (3 / 2) 9 (by norm_num) (by norm_num)
    (by norm_num)).1

/-- C7 as stated is false: the fee leg ignores the configured
`fee_token` entirely.  For the concrete payment `paymentFeeSol` whose
configured fee token is native SOL (decimals 9) with `fee_amount = 1`,
the claim demands a native transfer of 10^9 lamports to the fee
recipient; the composed transaction contains no native transfer to the
fee recipient at all, and its fee leg is an SPL transfer of the
hardcoded USDC mint over 10^6 = 1,000,000 minor units. -/
theorem claim_c7_counterexample :
    createPaymentTransaction envW attW paymentFeeSol "PAYER" = .ok txC7 ∧
    paymentFeeSol.fee_token = "SOL" ∧
    defaultConfig.getTokenConfig "SOL" =
      some { symbol := "SOL", mint := none, decimals := 9, name := "Solana" } ∧
    (∀ i ∈ txC7.instructions, i ≠ .transferSol "PAYER" "FEEW" 1000000000) ∧
    txC7.instructions.getLast? =
      some (.transferSpl splTokenProgramId ("PAYER." ++ usdcMint)
        ("FEEW." ++ usdcMint) "PAYER"
        (tokenMinorAmount paymentFeeSol.fee_amount 6)) ∧
    tokenMinorAmount paymentFeeSol.fee_amount 6 = 1000000 := by
  refine ⟨rfl, rfl, by decide, ?_, rfl, tokenMinorAmount_one_6⟩
  intro i hi
  simp only [txC7, List.mem_cons, List.mem_singleton, List.not_mem_nil,
    or_false] at hi
  rcases hi with hi | hi | hi <;> subst hi <;> simp

/-- C7 (amended): whatever the configured `fee_token` is, the fee leg
of every composed transaction is the hardcoded pair of instructions —
prepare the fee recipient's USDC associated account, then transfer
`(fee_amount * 10^6) as u64` minor units of the hardcoded USDC mint
from the payer's USDC account to the fee recipient's. -/
theorem claim_c7_fee_leg_hardcoded_usdc (env : ChainEnv)
    (att : String → ℕ → Option Blockhash) (payment : Payment)
    (payerStr : String) (tx : Transaction)
    (hok : createPaymentTransaction env att payment payerStr = .ok tx) :
    ∃ payer feeRecipient usdcKey rest,
      env.parsePubkey payerStr = some payer ∧
      env.parsePubkey payment.fee_recipient = some feeRecipient ∧
      env.parsePubkey usdcMint = some usdcKey ∧
      tx.instructions = rest ++
        [.createAssociatedTokenAccount payer feeRecipient usdcKey,
         .transferSpl splTokenProgramId
           (env.getAssociatedTokenAddress payer usdcKey)
           (env.getAssociatedTokenAddress feeRecipient usdcKey)
           payer (tokenMinorAmount payment.fee_amount 6)] := by
  obtain ⟨payer, recipient, feeRecipient, mainInstructions, usdcKey, bh,
    hp, _, hf, _, hu, _, htx⟩ := createPaymentTransaction_ok hok
  subst htx
  exact ⟨payer, feeRecipient, usdcKey, mainInstructions, hp, hf, hu, rfl⟩

/-- Witness for the amended C7 at `paymentFeeSol` (fee token configured
as SOL, fee leg still USDC). -/
theorem claim_c7_witness :
    ∃ payer feeRecipient usdcKey rest,
      envW.parsePubkey "PAYER" = some payer ∧
      envW.parsePubkey paymentFeeSol.fee_recipient = some feeRecipient ∧
      envW.parsePubkey usdcMint = some usdcKey ∧
      txC7.instructions = rest ++
        [.createAssociatedTokenAccount payer feeRecipient usdcKey,
         .transferSpl splTokenProgramId
           (envW.getAssociatedTokenAddress payer usdcKey)
           (envW.getAssociatedTokenAddress feeRecipient usdcKey)
           payer (tokenMinorAmount paymentFeeSol.fee_amount 6)] :=
  claim_c7_fee_leg_hardcoded_usdc envW attW paymentFeeSol "PAYER" txC7 rfl

/-- C2 as stated is false: the expiry check runs BEFORE the
already-completed check, so a Completed payment verified after its
`expires_at` (here at time 2000, past the 1800 deadline) yields a
not-verified `Expired` result and the stored payment is overwritten,
rather than the claimed immediate success without mutation. -/
theorem claim_c2_counterexample :
    p2.status = .Completed ∧
    verifyPayment defaultConfig envW getTxNever store2 "pay_2" "NEWSIG" 2000 =
      .ok ({ success := false, status := .Expired, verified := false,
             signature := none, details := "Payment has expired" },
           savePayment store2 "pay_2" { p2 with status := .Expired }) ∧
    getPayment (savePayment store2 "pay_2" { p2 with status := .Expired })
        "pay_2" ≠ some p2 := by
  refine ⟨rfl, rfl, ?_⟩
  rw [getPayment_savePayment_self]
  intro h
  have := congrArg (fun o => (o.map Payment.status).getD .Pending) h
  simp [p2] at this

/-- C2 (amended): for every payment whose status is `Completed` and
which is not yet past its expiry (`now ≤ expires_at`), verify returns
success immediately for any submitted signature, without performing the
network check (the result is the same for every network oracle) and
without mutating the stored payment — in particular `verified_at` is
unchanged by any such re-verification. -/
theorem claim_c2_completed_idempotent (cfg : Config) (env : ChainEnv)
    (getTx getTx' : String → Except String ConfirmedTransaction)
    (store : Store) (pid sig : String) (now : ℤ) (p : Payment)
    (hget : getPayment store pid = some p) (hst : p.status = .Completed)
    (hexp : ¬ now > p.expires_at) :
    verifyPayment cfg env getTx store pid sig now =
      .ok ({ success := true, status := .Completed, verified := true,
             signature := p.signature, details := "Already verified" },
           store) ∧
    verifyPayment cfg env getTx store pid sig now =
      verifyPayment cfg env getTx' store pid sig now := by
  refine ⟨verifyPayment_of_completed hget hexp hst, ?_⟩
  rw [verifyPayment_of_completed hget hexp hst,
    @verifyPayment_of_completed cfg env getTx' store pid sig now p hget hexp hst]

/-- Witness for the amended C2: re-verifying the completed `p2` at time
1000 (before expiry) succeeds and leaves the store untouched. -/
theorem claim_c2_witness :
    verifyPayment defaultConfig envW getTxNever store2 "pay_2" "NEWSIG" 1000 =
      .ok ({ success := true, status := .Completed, verified := true,
             signature := p2.signature, details := "Already verified" },
           store2) :=
  (claim_c2_completed_idempotent defaultConfig envW getTxNever getTxNever
    store2 "pay_2" "NEWSIG" 1000 p2 rfl rfl (by decide)).1

/-- C4: for every stored payment and every signature, if the current
time is strictly after `expires_at`, verify persists status `Expired`,
returns a not-verified result with the expiry reason, and never
performs the network transaction fetch (the outcome is identical for
every network oracle). -/
theorem claim_c4_expiry_before_network (cfg : Config) (env : ChainEnv)
    (getTx getTx' : String → Except String ConfirmedTransaction)
    (store : Store) (pid sig : String) (now : ℤ) (p : Payment)
    (hget : getPayment store pid = some p) (hexp : now > p.expires_at) :
    verifyPayment cfg env getTx store pid sig now =
      .ok ({ success := false, status := .Expired, verified := false,
             signature := none, details := "Payment has expired" },
           savePayment store pid { p with status := .Expired }) ∧
    getPayment (savePayment store pid { p with status := .Expired }) pid =
      some { p with status := .Expired } ∧
    verifyPayment cfg env getTx store pid sig now =
      verifyPayment cfg env getTx' store pid sig now := by
  refine ⟨verifyPayment_of_expired hget hexp,
    getPayment_savePayment_self _ _ _, ?_⟩
  rw [verifyPayment_of_expired hget hexp,
    @verifyPayment_of_expired cfg env getTx' store pid sig now p hget hexp]

/-- Witness for C4: `p4` is created at 0 with the 30-minute window
(`expires_at = 1800`); a verify attempt at 1860 (31 minutes after
creation) with a never-answering network oracle persists `Expired`. -/
theorem claim_c4_witness :
    verifyPayment defaultConfig envW getTxNever store4 "pay_4" "ANYSIG" 1860 =
      .ok ({ success := false, status := .Expired, verified := false,
             signature := none, details := "Payment has expired" },
           savePayment store4 "pay_4" { p4 with status := .Expired }) :=
  (claim_c4_expiry_before_network defaultConfig envW getTxNever getTxNever
    store4 "pay_4" "ANYSIG" 1860 p4 rfl (by decide)).1

/-- C3 as stated is false: `Completed` is not terminal.  A verify call
on the completed payment `p3` at time 4000 (past its 1800 expiry)
overwrites the stored status with `Expired`. -/
theorem claim_c3_counterexample :
    p3.status = .Completed ∧
    verifyPayment defaultConfig envW getTxNever store3 "pay_3" "ANYSIG" 4000 =
      .ok ({ success := false, status := .Expired, verified := false,
             signature := none, details := "Payment has expired" },
           savePayment store3 "pay_3" { p3 with status := .Expired }) ∧
    getPayment (savePayment store3 "pay_3" { p3 with status := .Expired })
        "pay_3" = some { p3 with status := .Expired } := by
  exact ⟨rfl, rfl, getPayment_savePayment_self _ _ _⟩

/-- C3 (amended): along every monotone-time run from an empty store, a
payment starts `Pending`; the only status transitions any operation
performs are `Pending → Completed` (verifier success), any non-Expired
status `→ Expired` — which happens only when the new time is strictly
past the payment's deadline, and which includes `Completed → Expired`
when verify runs on a completed payment past its expiry; `Expired` is
terminal, and `Failed` is never assigned by any operation. -/
theorem claim_c3_state_machine (w w' : World) (hr : Reachable w)
    (hs : Step w w') :
    (∀ pid p', getPayment w'.store pid = some p' → p'.status ≠ .Failed) ∧
    (∀ pid p', getPayment w.store pid = none →
       getPayment w'.store pid = some p' → p'.status = .Pending) ∧
    (∀ pid p p', getPayment w.store pid = some p →
       getPayment w'.store pid = some p' →
       ((p'.status = p.status ∨
         (p.status = .Pending ∧ p'.status = .Completed) ∨
         (p.status ≠ .Expired ∧ p'.status = .Expired ∧
           p.expires_at < w'.clock)) ∧
        (p.status = .Expired → p'.status = .Expired))) := by
  obtain ⟨hnd, hfacts⟩ := reachable_inv hr
  refine ⟨fun pid p' h =>
    ((step_preserves_inv ⟨hnd, hfacts⟩ hs).2 pid p' h).1, ?_, ?_⟩
  · intro pid p' hnone hsome
    cases hs with
    | create t cfg env qrGen req pid0 q s' hle hfresh hok =>
        obtain ⟨hst, _, _, _, hs'⟩ := createPaymentWithFee_ok hok
        subst hs'
        by_cases hpe : pid = pid0
        · subst hpe
          rw [getPayment_savePayment_self] at hsome
          obtain rfl : p' = q := by simpa using hsome.symm
          exact hst
        · rw [getPayment_savePayment_ne _ _ _ _ hpe, hnone] at hsome
          exact absurd hsome (by simp)
    | verify t cfg env getTx pid0 sig r s' hle hok =>
        obtain ⟨p0, hget, hcases⟩ := verifyPayment_ok_cases hok
        rcases hcases with ⟨_, _, hs'⟩ | ⟨_, _, hs'⟩ | ⟨_, _, hs' | hs'⟩ <;>
          subst hs'
        · by_cases hpe : pid = pid0
          · subst hpe
            rw [hnone] at hget
            exact absurd hget (by simp)
          · rw [getPayment_savePayment_ne _ _ _ _ hpe, hnone] at hsome
            exact absurd hsome (by simp)
        · rw [hnone] at hsome
          exact absurd hsome (by simp)
        · by_cases hpe : pid = pid0
          · subst hpe
            rw [hnone] at hget
            exact absurd hget (by simp)
          · rw [getPayment_savePayment_ne _ _ _ _ hpe, hnone] at hsome
            exact absurd hsome (by simp)
        · rw [hnone] at hsome
          exact absurd hsome (by simp)
    | cleanup t hle =>
        have h0 : getPayment
            (w.store.filter (fun e => !decide (t > e.2.expires_at))) pid =
              none := getPayment_filter_of_none _ hnone
        rw [cleanupExpiredPayments_fst, h0] at hsome
        exact absurd hsome (by simp)
    | deleteOp t pid0 hle =>
        have := getPayment_removeKey_some hsome
        rw [hnone] at this
        exact absurd this (by simp)
    | tick t hle =>
        rw [hnone] at hsome
        exact absurd hsome (by simp)
  · intro pid p p' hp hp'
    cases hs with
    | create t cfg env qrGen req pid0 q s' hle hfresh hok =>
        obtain ⟨hst, _, _, _, hs'⟩ := createPaymentWithFee_ok hok
        subst hs'
        by_cases hpe : pid = pid0
        · subst hpe
          rw [hfresh] at hp
          exact absurd hp (by simp)
        · rw [getPayment_savePayment_ne _ _ _ _ hpe, hp] at hp'
          obtain rfl : p' = p := by simpa using hp'.symm
          exact ⟨Or.inl rfl, fun he => he⟩
    | verify t cfg env getTx pid0 sig r s' hle hok =>
        obtain ⟨p0, hget, hcases⟩ := verifyPayment_ok_cases hok
        rcases hcases with ⟨hexp, _, hs'⟩ | ⟨hexp, hst, hs'⟩ |
          ⟨hexp, hst, hs' | hs'⟩ <;> subst hs'
        · by_cases hpe : pid = pid0
          · subst hpe
            rw [hget] at hp
            obtain rfl : p = p0 := by simpa using hp.symm
            rw [getPayment_savePayment_self] at hp'
            obtain rfl :
                p' = { p with status := PaymentStatus.Expired } := by
              simpa using hp'.symm
            refine ⟨?_, fun _ => rfl⟩
            by_cases hqe : p.status = .Expired
            · exact Or.inl (by simp [hqe])
            · exact Or.inr (Or.inr ⟨hqe, rfl, hexp⟩)
          · rw [getPayment_savePayment_ne _ _ _ _ hpe, hp] at hp'
            obtain rfl : p' = p := by simpa using hp'.symm
            exact ⟨Or.inl rfl, fun he => he⟩
        · rw [hp] at hp'
          obtain rfl : p' = p := by simpa using hp'.symm
          exact ⟨Or.inl rfl, fun he => he⟩
        · by_cases hpe : pid = pid0
          · subst hpe
            rw [hget] at hp
            obtain rfl : p = p0 := by simpa using hp.symm
            rw [getPayment_savePayment_self] at hp'
            obtain rfl :
                p' = { p with status := PaymentStatus.Completed, signature := some sig, verified_at := some t } := by
              simpa using hp'.symm
            have hnx : p.status ≠ .Expired := by
              intro he
              have h1 := (hfacts _ p hget).2 he
              have h2 : ¬ t > p.expires_at := hexp
              omega
            have hnf : p.status ≠ .Failed := (hfacts _ p hget).1
            have hpend : p.status = .Pending := by
              cases h0 : p.status <;> simp_all
            exact ⟨Or.inr (Or.inl ⟨hpend, rfl⟩), fun he => absurd he hnx⟩
          · rw [getPayment_savePayment_ne _ _ _ _ hpe, hp] at hp'
            obtain rfl : p' = p := by simpa using hp'.symm
            exact ⟨Or.inl rfl, fun he => he⟩
        · rw [hp] at hp'
          obtain rfl : p' = p := by simpa using hp'.symm
          exact ⟨Or.inl rfl, fun he => he⟩
    | cleanup t hle =>
        rw [cleanupExpiredPayments_fst] at hp'
        obtain ⟨hq, _⟩ := getPayment_filter_inv hnd hp'
        rw [hp] at hq
        obtain rfl : p' = p := by simpa using hq.symm
        exact ⟨Or.inl rfl, fun he => he⟩
    | deleteOp t pid0 hle =>
        have hq := getPayment_removeKey_some hp'
        rw [hp] at hq
        obtain rfl : p' = p := by simpa using hq.symm
        exact ⟨Or.inl rfl, fun he => he⟩
    | tick t hle =>
        rw [hp] at hp'
        obtain rfl : p' = p := by simpa using hp'.symm
        exact ⟨Or.inl rfl, fun he => he⟩

/-- Witness for the amended C3: one create step from the empty store at
time 5 (the new entry is `Pending`, nothing else changes). -/
theorem claim_c3_witness :
    (∀ pid p',
       getPayment (⟨[("pay_w1", pcW)], 5⟩ : World).store pid = some p' →
       p'.status ≠ .Failed) ∧
    (∀ pid p', getPayment (⟨[], 0⟩ : World).store pid = none →
       getPayment (⟨[("pay_w1", pcW)], 5⟩ : World).store pid = some p' →
       p'.status = .Pending) ∧
    (∀ pid p p', getPayment (⟨[], 0⟩ : World).store pid = some p →
       getPayment (⟨[("pay_w1", pcW)], 5⟩ : World).store pid = some p' →
       ((p'.status = p.status ∨
         (p.status = .Pending ∧ p'.status = .Completed) ∨
         (p.status ≠ .Expired ∧ p'.status = .Expired ∧
           p.expires_at < (⟨[("pay_w1", pcW)], 5⟩ : World).clock)) ∧
        (p.status = .Expired → p'.status = .Expired))) :=
  claim_c3_state_machine ⟨[], 0⟩ ⟨[("pay_w1", pcW)], 5⟩ (Reachable.init 0)
    (Step.create ⟨[], 0⟩ 5 defaultConfig envW qrW reqW "pay_w1" pcW
      [("pay_w1", pcW)] (by norm_num) rfl rfl)

/-- C6 as stated is false at the tolerance boundary: the code compares
with strict `<`, so an observed delta equal to the expected amount plus
exactly 1e-6 (here 1,000,001,000 lamports against an expected 1 SOL)
does NOT pass — the leg verifies as false, while the claim says such a
delta passes. -/
theorem claim_c6_counterexample :
    ((1000001000 : ℚ) - 0) / 10 ^ 9 = 1 + 1 / 1000000 ∧
    verifySolTransferInTransaction tx6boundary "RCPT" (F64.num 1) =
      .ok false := by
  constructor
  · norm_num
  · have heval := @verifySolTransferInTransaction_eval tx6boundary
        { err := none, preBalances := [0], postBalances := [1000001000],
          preTokenBalances := none, postTokenBalances := none }
        0 0 1000001000 "RCPT" 1 rfl rfl rfl rfl
    rw [heval]
    have hne : ¬ |(((1000001000 : ℕ) : ℚ) - ((0 : ℕ) : ℚ)) / 10 ^ 9 - 1| <
        1 / 1000000 := by
      rw [show (((1000001000 : ℕ) : ℚ) - ((0 : ℕ) : ℚ)) / 10 ^ 9 - 1 =
          1 / 1000000 by push_cast; norm_num]
      rw [abs_of_pos (by norm_num)]
      exact lt_irrefl _
    rw [decide_eq_false hne]

/-- C6 (amended): each leg compares the recipient's balance delta
(post − pre, converted to display units) against the leg's expected
amount with the STRICT tolerance `|delta − expected| < 1e-6`: a delta
strictly within 1e-6 passes (in particular an exact match), a delta
off by exactly 1e-6 fails, a delta off by 0.01 fails, and overall
validity requires both the main leg and the fee leg to match. -/
theorem claim_c6_tolerance :
    (∀ (tx : ConfirmedTransaction) (meta : TxMeta) (idx pre post : ℕ)
       (recipient : Pubkey) (e : ℚ),
       tx.meta = some meta →
       tx.accountKeys.findIdx? (fun key => key = recipient) = some idx →
       meta.preBalances.get? idx = some pre →
       meta.postBalances.get? idx = some post →
       (verifySolTransferInTransaction tx recipient (F64.num e) = .ok true ↔
         |((post : ℚ) - (pre : ℚ)) / 10 ^ 9 - e| < 1 / 1000000)) ∧
    (∀ a e : ℚ,
       (F64.lt (F64.abs (F64.sub (F64.num a) (F64.num e)))
         (F64.num (1 / 1000000)) = true) ↔ |a - e| < 1 / 1000000) ∧
    verifySolTransferInTransaction tx6pass "RCPT" (F64.num 1) = .ok true ∧
    verifySolTransferInTransaction tx6boundary "RCPT" (F64.num 1) =
      .ok false ∧
    verifySolTransferInTransaction tx6off "RCPT" (F64.num 1) = .ok false ∧
    (∀ (cfg : Config) (meta : TxMeta) (recipient : Pubkey) (e : ℚ)
       (token : String) (tc : TokenConfig) (mint : String)
       (preB postB : List TokenBalance),
       cfg.getTokenConfig token = some tc → tc.mint = some mint →
       meta.preTokenBalances = some preB →
       meta.postTokenBalances = some postB →
       (verifySplTransferInTransaction cfg meta recipient (F64.num e) token =
           .ok true ↔
         ∃ pb ∈ postB, pb.owner = recipient ∧ pb.mint = mint ∧
           F64.lt (F64.abs (F64.sub
               (F64.sub (pb.uiAmount.getD (F64.num 0))
                 (splPreAmount preB recipient mint))
               (F64.num e)))
             (F64.num (1 / 1000000)) = true)) ∧
    (∀ (cfg : Config) (env : ChainEnv)
       (getTx : String → Except String ConfirmedTransaction)
       (sigStr : String) (rcpt : Pubkey) (amt : F64) (tok : String)
       (v : TransactionVerification),
       verifyTransaction cfg env getTx sigStr rcpt amt tok = .ok v →
       v.is_valid = (v.main_transfer_valid && v.fee_transfer_valid)) := by
  refine ⟨?_, ?_, ?_, ?_, ?_, ?_,
    fun cfg env getTx sigStr rcpt amt tok v h =>
      verifyTransaction_ok_isValid h⟩
  · intro tx meta idx pre post recipient e hm hidx hpre hpost
    rw [verifySolTransferInTransaction_eval hm hidx hpre hpost]
    simp [decide_eq_true_eq]
  · intro a e
    rw [toleranceCheck_num]
    simp [decide_eq_true_eq]
  · have heval := @verifySolTransferInTransaction_eval tx6pass
        { err := none, preBalances := [0], postBalances := [1000000000],
          preTokenBalances := none, postTokenBalances := none }
        0 0 1000000000 "RCPT" 1 rfl rfl rfl rfl
    rw [heval]
    have hlt : |(((1000000000 : ℕ) : ℚ) - ((0 : ℕ) : ℚ)) / 10 ^ 9 - 1| <
        1 / 1000000 := by
      rw [show (((1000000000 : ℕ) : ℚ) - ((0 : ℕ) : ℚ)) / 10 ^ 9 - 1 =
          0 by push_cast; norm_num, abs_zero]
      norm_num
    rw [decide_eq_true hlt]
  · have heval := @verifySolTransferInTransaction_eval tx6boundary
        { err := none, preBalances := [0], postBalances := [1000001000],
          preTokenBalances := none, postTokenBalances := none }
        0 0 1000001000 "RCPT" 1 rfl rfl rfl rfl
    rw [heval]
    have hne : ¬ |(((1000001000 : ℕ) : ℚ) - ((0 : ℕ) : ℚ)) / 10 ^ 9 - 1| <
        1 / 1000000 := by
      rw [show (((1000001000 : ℕ) : ℚ) - ((0 : ℕ) : ℚ)) / 10 ^ 9 - 1 =
          1 / 1000000 by push_cast; norm_num]
      rw [abs_of_pos (by norm_num)]
      exact lt_irrefl _
    rw [decide_eq_false hne]
  · have heval := @verifySolTransferInTransaction_eval tx6off
        { err := none, preBalances := [0], postBalances := [1010000000],
          preTokenBalances := none, postTokenBalances := none }
        0 0 1010000000 "RCPT" 1 rfl rfl rfl rfl
    rw [heval]
    have hne : ¬ |(((1010000000 : ℕ) : ℚ) - ((0 : ℕ) : ℚ)) / 10 ^ 9 - 1| <
        1 / 1000000 := by
      rw [show (((1010000000 : ℕ) : ℚ) - ((0 : ℕ) : ℚ)) / 10 ^ 9 - 1 =
          1 / 100 by push_cast; norm_num]
      rw [abs_of_pos (by norm_num)]
      norm_num
    rw [decide_eq_false hne]
  · intro cfg meta recipient e token tc mint preB postB htc hmint hpre hpost
    simp only [verifySplTransferInTransaction, htc, hmint, hpre, hpost]
    simp [List.any_eq_true, decide_eq_true_eq]

/-- Witness for C6: the SOL-leg tolerance equivalence instantiated at
the exact-match fixture. -/
theorem claim_c6_witness :
    verifySolTransferInTransaction tx6pass "RCPT" (F64.num 1) = .ok true ↔
      |(((1000000000 : ℕ) : ℚ) - ((0 : ℕ) : ℚ)) / 10 ^ 9 - 1| <
        1 / 1000000 :=
  claim_c6_tolerance.1 tx6pass
    { err := none, preBalances := [0], postBalances := [1000000000],
      preTokenBalances := none, postTokenBalances := none }
    0 0 1000000000 "RCPT" 1 rfl rfl rfl rfl

/-- C8: the freshness-token fetch iterates the fixed ordered endpoint
list, making up to 2 attempts per endpoint (the per-attempt timeout and
the fixed backoff are absorbed into the attempt oracle) and returns the
first successful result in attempt order; in particular when the first
two endpoints fail every attempt and the third succeeds, the result is
the third endpoint's value with no error; only when every
endpoint-and-retry combination has failed does it return the
all-endpoints-failed error. -/
theorem claim_c8_endpoint_fallback (att : String → ℕ → Option Blockhash) :
    (getRecentBlockhashWithRetries att =
      match (attemptSequence att).findSome? id with
      | some h => .ok h
      | none => .error "All RPC endpoints failed after retries") ∧
    (∀ h, att "https://api.mainnet-beta.solana.com" 0 = none →
       att "https://api.mainnet-beta.solana.com" 1 = none →
       att "https://solana-api.projectserum.com" 0 = none →
       att "https://solana-api.projectserum.com" 1 = none →
       att "https://rpc.ankr.com/solana" 0 = some h →
       getRecentBlockhashWithRetries att = .ok h) ∧
    ((∀ e ∈ rpcEndpoints, ∀ n, n < 2 → att e n = none) →
       getRecentBlockhashWithRetries att =
         .error "All RPC endpoints failed after retries") := by
  refine ⟨getRecentBlockhashWithRetries_eq att, ?_, ?_⟩
  · intro h h1 h2 h3 h4 h5
    unfold getRecentBlockhashWithRetries rpcEndpoints
    simp [tryEndpointsForBlockhash, h1, h2, h3, h4, h5]
  · intro hall
    have h1 := hall "https://api.mainnet-beta.solana.com"
      (by simp [rpcEndpoints]) 0 (by norm_num)
    have h2 := hall "https://api.mainnet-beta.solana.com"
      (by simp [rpcEndpoints]) 1 (by norm_num)
    have h3 := hall "https://solana-api.projectserum.com"
      (by simp [rpcEndpoints]) 0 (by norm_num)
    have h4 := hall "https://solana-api.projectserum.com"
      (by simp [rpcEndpoints]) 1 (by norm_num)
    have h5 := hall "https://rpc.ankr.com/solana"
      (by simp [rpcEndpoints]) 0 (by norm_num)
    have h6 := hall "https://rpc.ankr.com/solana"
      (by simp [rpcEndpoints]) 1 (by norm_num)
    unfold getRecentBlockhashWithRetries rpcEndpoints
    simp [tryEndpointsForBlockhash, h1, h2, h3, h4, h5, h6]

/-- Witness for C8: under `attC` the first two endpoints fail every
attempt and the third succeeds with "HC"; the fetch returns "HC". -/
theorem claim_c8_witness : getRecentBlockhashWithRetries attC = .ok "HC" :=
  (claim_c8_endpoint_fallback attC).2.1 "HC" (by decide) (by decide)
    (by decide) (by decide) (by decide)

/-- C9: for every store with distinct keys (the `HashMap` invariant)
and every current time, the sweep removes exactly the entries whose
`expires_at` is strictly before `now` — regardless of their recorded
status — and returns their count; afterwards no removed id is
retrievable via get, and every non-expired entry is still present with
the identical payment record (hence unchanged status). -/
theorem claim_c9_sweep (s : Store) (now : ℤ) (hnd : keysNodup s) :
    ((cleanupExpiredPayments s now).2 =
       (s.filter (fun e => decide (now > e.2.expires_at))).length) ∧
    (∀ k p, getPayment s k = some p → now > p.expires_at →
       getPayment (cleanupExpiredPayments s now).1 k = none) ∧
    (∀ k p, getPayment s k = some p → ¬ now > p.expires_at →
       getPayment (cleanupExpiredPayments s now).1 k = some p) ∧
    (∀ k p, getPayment (cleanupExpiredPayments s now).1 k = some p →
       getPayment s k = some p ∧ ¬ now > p.expires_at) := by
  refine ⟨cleanupExpiredPayments_count s now, ?_, ?_, ?_⟩
  · intro k p hget hexp
    rw [cleanupExpiredPayments_fst]
    exact getPayment_filter_none hnd hget (by simp [hexp])
  · intro k p hget hexp
    rw [cleanupExpiredPayments_fst]
    exact getPayment_filter_some hnd hget (by simp [hexp])
  · intro k p h
    rw [cleanupExpiredPayments_fst] at h
    obtain ⟨h1, h2⟩ := getPayment_filter_inv hnd h
    refine ⟨h1, ?_⟩
    simpa using h2

/-- Witness for C9: sweeping `storeW9` at time 200 removes the entry
expired at 100, keeps the one expiring at 300 unchanged, and reports
one removal. -/
theorem claim_c9_witness :
    getPayment (cleanupExpiredPayments storeW9 200).1 "a" = none ∧
    getPayment (cleanupExpiredPayments storeW9 200).1 "b" = some p9b ∧
    (cleanupExpiredPayments storeW9 200).2 = 1 := by
  obtain ⟨hcount, hrem, hkeep, _⟩ := claim_c9_sweep storeW9 200
    (by show (storeW9.map Prod.fst).Nodup; decide)
  refine ⟨hrem "a" p9a rfl (by decide), hkeep "b" p9b ?_ (by decide), ?_⟩
  · rw [show getPayment storeW9 "b" = some p9b from by
      simp [storeW9, getPayment]]
  · rw [hcount]
    decide

/-- C10: the public create operation accepts a request whose amount is
the floating-point NaN: both validation comparisons (`amount <= 0.0`
and `amount > 1_000_000.0`) are false on NaN, so validation passes and
a `Pending` payment with amount NaN is created and stored. -/
theorem claim_c10_nan_accepted :
    F64.le F64.nan (F64.num 0) = false ∧
    F64.lt (F64.num 1000000) F64.nan = false ∧
    validatePaymentRequest defaultConfig envW reqNan = .ok () ∧
    createPaymentWithFee defaultConfig envW qrW reqNan "pay_nan" 0 [] =
      .ok (pNan, [("pay_nan", pNan)]) ∧
    pNan.amount = F64.nan ∧
    pNan.status = .Pending ∧
    getPayment [("pay_nan", pNan)] "pay_nan" = some pNan := by
  exact ⟨rfl, rfl, rfl, rfl, rfl, rfl, rfl⟩
